import Mathlib

/-!
Verification development for the memory-management subsystem of an IBM-PC
system emulator (file src/mem.c of the repository): the x86 page-table
walkers (32-bit and PAE), the translation caches, the region registry with
its chunk dispatch tables, the physical page dirty tracking, and the
physical bulk-transfer helpers.

Conventions of the shallow embedding:
- machine integers are modelled as Nat with explicit masking where the
  source narrows a value (uint32 loads are masked with 0xffffffff, the
  40-bit PAE physical mask 0x000000ffffffffff is applied exactly where the
  source applies it);
- the global mutable state of the C file becomes explicit state records
  passed and returned by each function;
- page-table memory accessed through the rammap and rammap64 macros is
  modelled as functions from byte address to cell value.  The walker only
  ever uses 4-byte aligned (respectively 8-byte aligned) addresses, so
  keying cells by their byte address is faithful;
- external device accessor callbacks (read_b and friends) are opaque to
  this subsystem; byte read handlers are modelled as pure oracles and
  write handler invocations are recorded as events, since the claims only
  concern paths on which the handlers are, or are not, invoked.
-/

/-- Pointwise update of a function, used to model stores into the global
arrays of the source. -/
def fupd {α : Type} (f : Nat → α) (i : Nat) (v : α) : Nat → α :=
  fun j => if j = i then v else f j

namespace Mmu

/-- Modelled from the spec: architectural CR4 page-size-extension bit
(the constant lives in a cpu header that is not part of src; the claims do
not depend on its numeric value). -/
def CR4_PSE : Nat := 0x10

/-- Modelled from the spec: architectural CR4 physical-address-extension
bit (constant from a cpu header outside src). -/
def CR4_PAE : Nat := 0x20

/-- Modelled from the spec: architectural CR0 write-protect bit (constant
from a cpu header outside src). -/
def WP_FLAG : Nat := 0x10000

/-- Byte-read mapping descriptor as seen by the byte access dispatch:
whether the chunk owner provides a byte read handler, the handler itself
being an opaque pure oracle. -/
structure RMapping where
  read_b : Option (Nat → Nat)

/-- Byte-write mapping descriptor: whether the chunk owner provides a
byte write handler. -/
structure WMapping where
  write_b : Bool

/-- The state touched by the page-table walkers and the byte access
dispatch: control registers, privilege, the fault registers, page-table
memory in its 32-bit view (rammap) and 64-bit view (rammap64), and the
chunk dispatch inputs of readmembl and writemembl. -/
structure MState where
  abrt : Bool := false
  abrt_error : Nat := 0
  cr0 : Nat := 0
  cr2 : Nat := 0
  cr3 : Nat := 0
  cr4 : Nat := 0
  cpl : Nat := 0
  cpl_override : Bool := false
  mmu_perm : Nat := 4
  tab : Nat → Nat := fun _ => 0
  tab64 : Nat → Nat := fun _ => 0
  rammask : Nat := 0xffffffff
  mem_logical_addr : Nat := 0
  read_mapping : Nat → Option RMapping := fun _ => none
  write_mapping : Nat → Option WMapping := fun _ => none
  page_lookup : Nat → Option Nat := fun _ => none

/-- The rammap macro: a 32-bit load from page-table memory. -/
def rammap (s : MState) (x : Nat) : Nat := s.tab x &&& 0xffffffff

/-- A 32-bit read-modify-write store through rammap (the or-assignments
of the accessed and dirty bits). -/
def rammap_or (s : MState) (x m : Nat) : MState :=
  { s with tab := fupd s.tab x (rammap s x ||| m) }

/-- The rammap64 macro: a 64-bit load from page-table memory. -/
def rammap64 (s : MState) (x : Nat) : Nat := s.tab64 x &&& 0xffffffffffffffff

/-- A 64-bit read-modify-write store through rammap64. -/
def rammap64_or (s : MState) (x m : Nat) : MState :=
  { s with tab64 := fupd s.tab64 x (rammap64 s x ||| m) }

/-- The fault cause value built on every faulting path of the walkers:
temp is masked to its present bit, bit 2 is set at user privilege and
bit 1 on a write. -/
def pf_error (entry cpl : Nat) (rw : Bool) : Nat :=
  ((entry &&& 1) ||| (if cpl = 3 then 4 else 0)) ||| (if rw then 2 else 0)

/-- The fault side effect shared by every faulting path: CR2 receives the
linear address, the abort flag is raised (ABRT_PF in the source) and the
cause value is stored in abrt_error. -/
def page_fault (s : MState) (addr entry : Nat) (rw : Bool) : MState :=
  { s with cr2 := addr, abrt := true, abrt_error := pf_error entry s.cpl rw }

/-- Address of the page-directory entry in the normal (non-PAE) walk. -/
def nrm_addr2 (s : MState) (addr : Nat) : Nat :=
  (s.cr3 &&& 0xfffff000) + ((addr >>> 20) &&& 0xffc)

/-- The page-directory entry in the normal walk. -/
def nrm_dirent (s : MState) (addr : Nat) : Nat := rammap s (nrm_addr2 s addr)

/-- Address of the page-table entry in the normal walk. -/
def nrm_tabaddr (s : MState) (addr : Nat) : Nat :=
  ((nrm_dirent s addr) &&& 0xfffff000) + ((addr >>> 10) &&& 0xffc)

/-- The page-table entry in the normal walk. -/
def nrm_tabent (s : MState) (addr : Nat) : Nat := rammap s (nrm_tabaddr s addr)

/-- The all-ones 64-bit sentinel returned by every faulting walk. -/
def SENT : Nat := 0xffffffffffffffff

/-- The normal (two-level, non-PAE) faulting page-table walk
mmutranslatereal_normal of the source: returns the translated physical
address or the sentinel, together with the updated state. -/
def mmutranslatereal_normal (s : MState) (addr : Nat) (rw : Bool) : Nat × MState :=
  if s.abrt then (SENT, s)
  else
    let temp2 := nrm_dirent s addr
    if temp2 &&& 1 = 0 then
      (SENT, page_fault s addr temp2 rw)
    else if temp2 &&& 0x80 ≠ 0 ∧ s.cr4 &&& CR4_PSE ≠ 0 then
      if (s.cpl = 3 ∧ temp2 &&& 4 = 0 ∧ ¬s.cpl_override) ∨
         (rw ∧ temp2 &&& 2 = 0 ∧ ((s.cpl = 3 ∧ ¬s.cpl_override) ∨ s.cr0 &&& WP_FLAG ≠ 0)) then
        (SENT, page_fault s addr temp2 rw)
      else
        let s1 := { s with mmu_perm := temp2 &&& 4 }
        let s2 := rammap_or s1 (nrm_addr2 s addr) 0x20
        ((temp2 &&& 0xffc00000) + (addr &&& 0x3fffff), s2)
    else
      let temp := nrm_tabent s addr
      let temp3 := temp &&& temp2
      if temp &&& 1 = 0 ∨ (s.cpl = 3 ∧ temp3 &&& 4 = 0 ∧ ¬s.cpl_override) ∨
         (rw ∧ temp3 &&& 2 = 0 ∧ ((s.cpl = 3 ∧ ¬s.cpl_override) ∨ s.cr0 &&& WP_FLAG ≠ 0)) then
        (SENT, page_fault s addr temp rw)
      else
        let s1 := { s with mmu_perm := temp &&& 4 }
        let s2 := rammap_or s1 (nrm_addr2 s addr) 0x20
        let s3 := rammap_or s2 (nrm_tabaddr s addr) (if rw then 0x60 else 0x20)
        ((temp &&& 0xfffff000) + (addr &&& 0xfff), s3)

/-- Address of the page-directory-pointer-table entry in the PAE walk. -/
def pae_addr2 (s : MState) (addr : Nat) : Nat :=
  (s.cr3 &&& 0xffffffe0) + ((addr >>> 27) &&& 0x18)

/-- The directory-pointer entry in the PAE walk, masked to the supported
40-bit physical width as in the source. -/
def pae_dpent (s : MState) (addr : Nat) : Nat :=
  rammap64 s (pae_addr2 s addr) &&& 0x000000ffffffffff

/-- Address of the page-directory entry in the PAE walk. -/
def pae_addr3 (s : MState) (addr : Nat) : Nat :=
  ((pae_dpent s addr) &&& 0xfffffffffffff000) + ((addr >>> 18) &&& 0xff8)

/-- The page-directory entry in the PAE walk. -/
def pae_dirent (s : MState) (addr : Nat) : Nat :=
  rammap64 s (pae_addr3 s addr) &&& 0x000000ffffffffff

/-- Address of the page-table entry in the PAE walk. -/
def pae_addr4 (s : MState) (addr : Nat) : Nat :=
  ((pae_dirent s addr) &&& 0xfffffffffffff000) + ((addr >>> 9) &&& 0xff8)

/-- The page-table entry in the PAE walk. -/
def pae_tabent (s : MState) (addr : Nat) : Nat :=
  rammap64 s (pae_addr4 s addr) &&& 0x000000ffffffffff

/-- The PAE (three-level) faulting page-table walk mmutranslatereal_pae
of the source. -/
def mmutranslatereal_pae (s : MState) (addr : Nat) (rw : Bool) : Nat × MState :=
  if s.abrt then (SENT, s)
  else
    let temp2 := pae_dpent s addr
    if temp2 &&& 1 = 0 then
      (SENT, page_fault s addr temp2 rw)
    else
      let temp4 := pae_dirent s addr
      if temp4 &&& 1 = 0 then
        (SENT, page_fault s addr temp4 rw)
      else if temp4 &&& 0x80 ≠ 0 then
        if (s.cpl = 3 ∧ temp4 &&& 4 = 0 ∧ ¬s.cpl_override) ∨
           (rw ∧ temp4 &&& 2 = 0 ∧ ((s.cpl = 3 ∧ ¬s.cpl_override) ∨ s.cr0 &&& WP_FLAG ≠ 0)) then
          (SENT, page_fault s addr temp4 rw)
        else
          let s1 := { s with mmu_perm := temp4 &&& 4 }
          let s2 := rammap64_or s1 (pae_addr3 s addr) 0x20
          (((temp4 &&& 0xffffffffffe00000) + (addr &&& 0x1fffff)) &&& 0x000000ffffffffff, s2)
      else
        let temp := pae_tabent s addr
        let temp3 := temp &&& temp4
        if temp &&& 1 = 0 ∨ (s.cpl = 3 ∧ temp3 &&& 4 = 0 ∧ ¬s.cpl_override) ∨
           (rw ∧ temp3 &&& 2 = 0 ∧ ((s.cpl = 3 ∧ ¬s.cpl_override) ∨ s.cr0 &&& WP_FLAG ≠ 0)) then
          (SENT, page_fault s addr temp rw)
        else
          let s1 := { s with mmu_perm := temp &&& 4 }
          let s2 := rammap64_or s1 (pae_addr3 s addr) 0x20
          let s3 := rammap64_or s2 (pae_addr4 s addr) (if rw then 0x60 else 0x20)
          (((temp &&& 0xfffffffffffff000) + (addr &&& 0xfff)) &&& 0x000000ffffffffff, s3)

/-- mmutranslatereal: mode selection by the CR4 PAE bit. -/
def mmutranslatereal (s : MState) (addr : Nat) (rw : Bool) : Nat × MState :=
  if s.cr4 &&& CR4_PAE ≠ 0 then mmutranslatereal_pae s addr rw
  else mmutranslatereal_normal s addr rw

/-- The non-faulting normal walk mmutranslate_noabrt_normal of the
source: identical traversal, pure (no store, no fault registers), but its
write-permission test lacks the cpl_override exemption that the faulting
walk has. -/
def mmutranslate_noabrt_normal (s : MState) (addr : Nat) (rw : Bool) : Nat :=
  if s.abrt then SENT
  else
    let temp2 := nrm_dirent s addr
    if temp2 &&& 1 = 0 then SENT
    else if temp2 &&& 0x80 ≠ 0 ∧ s.cr4 &&& CR4_PSE ≠ 0 then
      if (s.cpl = 3 ∧ temp2 &&& 4 = 0 ∧ ¬s.cpl_override) ∨
         (rw ∧ temp2 &&& 2 = 0 ∧ (s.cpl = 3 ∨ s.cr0 &&& WP_FLAG ≠ 0)) then SENT
      else (temp2 &&& 0xffc00000) + (addr &&& 0x3fffff)
    else
      let temp := nrm_tabent s addr
      let temp3 := temp &&& temp2
      if temp &&& 1 = 0 ∨ (s.cpl = 3 ∧ temp3 &&& 4 = 0 ∧ ¬s.cpl_override) ∨
         (rw ∧ temp3 &&& 2 = 0 ∧ (s.cpl = 3 ∨ s.cr0 &&& WP_FLAG ≠ 0)) then SENT
      else (temp &&& 0xfffff000) + (addr &&& 0xfff)

/-- The non-faulting PAE walk mmutranslate_noabrt_pae of the source. -/
def mmutranslate_noabrt_pae (s : MState) (addr : Nat) (rw : Bool) : Nat :=
  if s.abrt then SENT
  else
    let temp2 := pae_dpent s addr
    if temp2 &&& 1 = 0 then SENT
    else
      let temp4 := pae_dirent s addr
      if temp4 &&& 1 = 0 then SENT
      else if temp4 &&& 0x80 ≠ 0 then
        if (s.cpl = 3 ∧ temp4 &&& 4 = 0 ∧ ¬s.cpl_override) ∨
           (rw ∧ temp4 &&& 2 = 0 ∧ (s.cpl = 3 ∨ s.cr0 &&& WP_FLAG ≠ 0)) then SENT
        else ((temp4 &&& 0xffffffffffe00000) + (addr &&& 0x1fffff)) &&& 0x000000ffffffffff
      else
        let temp := pae_tabent s addr
        let temp3 := temp &&& temp4
        if temp &&& 1 = 0 ∨ (s.cpl = 3 ∧ temp3 &&& 4 = 0 ∧ ¬s.cpl_override) ∨
           (rw ∧ temp3 &&& 2 = 0 ∧ (s.cpl = 3 ∨ s.cr0 &&& WP_FLAG ≠ 0)) then SENT
        else ((temp &&& 0xfffffffffffff000) + (addr &&& 0xfff)) &&& 0x000000ffffffffff

/-- The entry whose examination triggers the fault on each faulting path
of the normal walk (the value held in temp when the cause is built): the
directory entry when it is not present or a large page faults, the table
entry otherwise. -/
def nrm_failent (s : MState) (addr : Nat) : Nat :=
  let temp2 := nrm_dirent s addr
  if temp2 &&& 1 = 0 then temp2
  else if temp2 &&& 0x80 ≠ 0 ∧ s.cr4 &&& CR4_PSE ≠ 0 then temp2
  else nrm_tabent s addr

/-- The entry whose examination triggers the fault on each faulting path
of the PAE walk. -/
def pae_failent (s : MState) (addr : Nat) : Nat :=
  let temp2 := pae_dpent s addr
  if temp2 &&& 1 = 0 then temp2
  else
    let temp4 := pae_dirent s addr
    if temp4 &&& 1 = 0 then temp4
    else if temp4 &&& 0x80 ≠ 0 then temp4
    else pae_tabent s addr

/-- Modelled from the spec: the fixed chunk granularity of the dispatch
tables (the constant MEM_GRANULARITY_BITS lives in a header outside src;
the spec gives 4 KiB as the example granularity and no claim depends on
the numeric value). -/
def MEM_GRANULARITY_BITS : Nat := 12

/-- Recording of the store of the logical address into the diagnostic
global mem_logical_addr at the top of each access entry point. -/
def set_mla (s : MState) (a : Nat) : MState := { s with mem_logical_addr := a }

/-- The chunk-table dispatch tail of readmembl: consult the read mapping
of the chunk, call its byte read handler when present, otherwise return
the open-bus value 0xff. -/
def readmembl_dispatch (s : MState) (addr : Nat) : Nat × MState :=
  match s.read_mapping (addr >>> MEM_GRANULARITY_BITS) with
  | some m =>
      match m.read_b with
      | some f => (f addr &&& 0xff, s)
      | none => (0xff, s)
  | none => (0xff, s)

/-- readmembl of the source: record the logical address, translate when
paging is on (returning 0xff on a faulting or out-of-range translation),
mask with the RAM mask and dispatch. -/
def readmembl (s0 : MState) (addr : Nat) : Nat × MState :=
  let s := set_mla s0 addr
  if s.cr0 >>> 31 ≠ 0 then
    let r := mmutranslatereal s addr false
    if r.1 = SENT then (0xff, r.2)
    else if r.1 > 0xffffffff then (0xff, r.2)
    else readmembl_dispatch r.2 (r.1 &&& r.2.rammask)
  else readmembl_dispatch s (addr &&& s.rammask)

/-- The externally visible effect of a byte write: either nothing, a
write through the page_lookup fast path (the per-page RAM write handler),
or a call of the byte write handler of the owning mapping. -/
inductive WriteEff where
  | noWrite : WriteEff
  | pageWrite (pidx addr val : Nat) : WriteEff
  | mappedWrite (addr val : Nat) : WriteEff
deriving DecidableEq

/-- The chunk-table dispatch tail of writemembl: a write handler call is
recorded as an event; a chunk with no write mapping or no byte write
handler is a silent no-op. -/
def writemembl_dispatch (s : MState) (addr val : Nat) : MState × WriteEff :=
  match s.write_mapping (addr >>> MEM_GRANULARITY_BITS) with
  | some m => if m.write_b then (s, WriteEff.mappedWrite addr val) else (s, WriteEff.noWrite)
  | none => (s, WriteEff.noWrite)

/-- writemembl of the source: record the logical address, take the
page_lookup fast path when it hits, otherwise translate when paging is on
(returning silently on a faulting or out-of-range translation), mask and
dispatch. -/
def writemembl (s0 : MState) (addr val : Nat) : MState × WriteEff :=
  let s := set_mla s0 addr
  match s.page_lookup (addr >>> 12) with
  | some pidx => (s, WriteEff.pageWrite pidx addr val)
  | none =>
      if s.cr0 >>> 31 ≠ 0 then
        let r := mmutranslatereal s addr true
        if r.1 = SENT then (r.2, WriteEff.noWrite)
        else if r.1 > 0xffffffff then (r.2, WriteEff.noWrite)
        else writemembl_dispatch r.2 (r.1 &&& r.2.rammask) val
      else writemembl_dispatch s (addr &&& s.rammask) val

end Mmu

namespace Pg

/-- Sub-block granularity shift of the dirty and code masks, from the
USE_NEW_DYNAREC branch of the source (PAGE_MASK_SHIFT 6). -/
def PAGE_MASK_SHIFT : Nat := 6

/-- Sub-block index mask, from the source (PAGE_MASK_MASK 63). -/
def PAGE_MASK_MASK : Nat := 63

/-- Modelled from the spec: shift selecting the 64-bit word of the
byte-granular dirty mask (the constant lives in a header outside src; the
per-page byte mask is 4096 bits stored as 64 words of 64 bits). -/
def PAGE_BYTE_MASK_SHIFT : Nat := 6

/-- Modelled from the spec: index mask for the byte-granular dirty mask
words (header constant outside src). -/
def PAGE_BYTE_MASK_OFFSET_MASK : Nat := 63

/-- Modelled from the spec: bit-position mask inside one byte-granular
dirty mask word (header constant outside src). -/
def PAGE_BYTE_MASK_MASK : Nat := 63

/-- Modelled from the spec: the sentinel stored in evict_prev marking a
page as not linked into the eviction list (header constant outside src). -/
def EVICT_NOT_IN_LIST : Nat := 0xffffffff

/-- One entry of the RAM page table: backing bytes, sub-block dirty and
code-present masks, the byte-granular masks, and the index links of the
eviction list. -/
structure Page where
  mem : Nat → Nat := fun _ => 0
  dirty_mask : Nat := 0
  code_present_mask : Nat := 0
  byte_dirty_mask : Nat → Nat := fun _ => 0
  byte_code_present_mask : Nat → Nat := fun _ => 0
  evict_prev : Nat := EVICT_NOT_IN_LIST
  evict_next : Nat := 0

/-- The global state of the dirty-tracking component: the page table
(indexed by page number, standing for the pointers of the source), the
eviction list head and count, and the external JIT recompile flag. -/
structure PageState where
  pages : Nat → Page := fun _ => { }
  purgable_page_list_head : Nat := 0
  purgeable_page_count : Nat := 0
  codegen_in_recompile : Bool := false

/-- Modelled from the spec: membership in the eviction list is marked by
evict_prev holding anything but the not-in-list sentinel (the test macro
lives in a header outside src; the spec describes the list as
index-linked with explicit membership maintained at every write). -/
def page_in_evict_list (p : Page) : Prop := p.evict_prev ≠ EVICT_NOT_IN_LIST

instance (p : Page) : Decidable (page_in_evict_list p) := by
  unfold page_in_evict_list
  infer_instance

/-- page_add_to_evict_list of the source, with the page pointer replaced
by its page-table index: links the page in front of the current head by
the exact statement sequence of the source (including the final reload of
the head through the page table). -/
def page_add_to_evict_list (s : PageState) (pi : Nat) : PageState :=
  let h := s.purgable_page_list_head
  let s1 := { s with pages := fupd s.pages h ({ s.pages h with evict_prev := pi }) }
  let p2 := { s1.pages pi with evict_next := s1.purgable_page_list_head }
  let s2 := { s1 with pages := fupd s1.pages pi p2 }
  let s3 := { s2 with pages := fupd s2.pages pi ({ s2.pages pi with evict_prev := 0 }) }
  let h4 := (s3.pages s3.purgable_page_list_head).evict_prev
  let s4 := { s3 with purgable_page_list_head := h4 }
  { s4 with purgeable_page_count := s4.purgeable_page_count + 1 }

/-- The byte store and sub-block dirty marking of mem_write_ramb_page
(the first two statements of its changed-value branch). -/
def ramb_store (s : PageState) (addr val pi mask : Nat) : PageState :=
  let p := { s.pages pi with
             mem := fupd (s.pages pi).mem (addr &&& 0xfff) val,
             dirty_mask := (s.pages pi).dirty_mask ||| mask }
  { s with pages := fupd s.pages pi p }

/-- The sub-block eviction check of mem_write_ramb_page: insert the page
when the touched sub-block is code resident and the page is not yet
listed. -/
def evict_check_block (s : PageState) (pi mask : Nat) : PageState :=
  if (s.pages pi).code_present_mask &&& mask ≠ 0 ∧ ¬ page_in_evict_list (s.pages pi) then
    page_add_to_evict_list s pi
  else s

/-- The byte-granular dirty marking of mem_write_ramb_page. -/
def ramb_byte_dirty (s : PageState) (pi byte_offset byte_mask : Nat) : PageState :=
  let p := { s.pages pi with
             byte_dirty_mask := fupd (s.pages pi).byte_dirty_mask byte_offset
               ((s.pages pi).byte_dirty_mask byte_offset ||| byte_mask) }
  { s with pages := fupd s.pages pi p }

/-- The byte-granular eviction check of mem_write_ramb_page. -/
def evict_check_byte (s : PageState) (pi byte_offset byte_mask : Nat) : PageState :=
  if (s.pages pi).byte_code_present_mask byte_offset &&& byte_mask ≠ 0 ∧
     ¬ page_in_evict_list (s.pages pi) then
    page_add_to_evict_list s pi
  else s

/-- mem_write_ramb_page of the source (USE_NEW_DYNAREC branch), the page
pointer replaced by its index: when the value differs from the stored
byte, or the external JIT is mid-recompilation, store the byte, set the
sub-block and byte dirty bits and run both eviction checks in source
order; otherwise do nothing. -/
def mem_write_ramb_page (s : PageState) (addr val pi : Nat) : PageState :=
  if val ≠ (s.pages pi).mem (addr &&& 0xfff) ∨ s.codegen_in_recompile then
    let mask := 1 <<< ((addr >>> PAGE_MASK_SHIFT) &&& PAGE_MASK_MASK)
    let byte_offset := (addr >>> PAGE_BYTE_MASK_SHIFT) &&& PAGE_BYTE_MASK_OFFSET_MASK
    let byte_mask := 1 <<< (addr &&& PAGE_BYTE_MASK_MASK)
    evict_check_byte
      (ramb_byte_dirty
        (evict_check_block (ramb_store s addr val pi mask) pi mask)
        pi byte_offset byte_mask)
      pi byte_offset byte_mask
  else s

end Pg

namespace Phys

/-- Modelled from the spec: mask selecting the offset inside one
granularity chunk (header constant outside src). -/
def MEM_GRANULARITY_MASK : Nat := 0xfff

/-- Modelled from the spec: highest address at which a 16-bit physical
access is served whole (header constant outside src; no claim depends on
its numeric value). -/
def MEM_GRANULARITY_HBOUND : Nat := 0xfffffffe

/-- Modelled from the spec: highest address at which a 32-bit physical
access is served whole (header constant outside src). -/
def MEM_GRANULARITY_QBOUND : Nat := 0xfffffffc

/-- Accessor record of a physical mapping: the read handlers are opaque
pure oracles, the write handlers are presence flags whose invocations are
recorded as events. -/
structure PhysMap where
  read_b : Option (Nat → Nat) := none
  read_w : Option (Nat → Nat) := none
  read_l : Option (Nat → Nat) := none
  write_b : Bool := false
  write_w : Bool := false
  write_l : Bool := false

/-- State of the physical access helpers: the direct execute-pointer
chunks (a byte store per chunk, keyed by the in-chunk offset), the read
and write chunk dispatch tables, and the diagnostic logical address. -/
structure PhysState where
  mem_exec : Nat → Option (Nat → Nat) := fun _ => none
  read_mapping : Nat → Option PhysMap := fun _ => none
  write_mapping : Nat → Option PhysMap := fun _ => none
  mem_logical_addr : Nat := 0

/-- Recorded call of an external write handler. -/
inductive PhysEvent where
  | wb (addr val : Nat) : PhysEvent
  | ww (addr val : Nat) : PhysEvent
  | wl (addr val : Nat) : PhysEvent
deriving DecidableEq

/-- Little-endian 16-bit load from a chunk byte store (the host pointer
cast of the source on a little-endian host). -/
def exec_read16 (f : Nat → Nat) (off : Nat) : Nat :=
  (f off &&& 0xff) ||| ((f (off + 1) &&& 0xff) <<< 8)

/-- Little-endian 32-bit load from a chunk byte store. -/
def exec_read32 (f : Nat → Nat) (off : Nat) : Nat :=
  exec_read16 f off ||| (exec_read16 f (off + 2) <<< 16)

/-- mem_readb_phys of the source: prefer the direct execute pointer,
then the byte read handler, else the open-bus value. -/
def mem_readb_phys (s0 : PhysState) (addr : Nat) : PhysState × Nat :=
  let s := { s0 with mem_logical_addr := 0xffffffff }
  match s.mem_exec (addr >>> Mmu.MEM_GRANULARITY_BITS) with
  | some f => (s, f (addr &&& MEM_GRANULARITY_MASK) &&& 0xff)
  | none =>
      match s.read_mapping (addr >>> Mmu.MEM_GRANULARITY_BITS) with
      | some m =>
          match m.read_b with
          | some f => (s, f addr &&& 0xff)
          | none => (s, 0xff)
      | none => (s, 0xff)

/-- The byte-pair fallback of mem_readw_phys: high byte from addr+1
first, then the low byte, exactly as the source sequences the calls. -/
def readw_fallback (s : PhysState) (addr : Nat) : PhysState × Nat :=
  let r1 := mem_readb_phys s (addr + 1)
  let r2 := mem_readb_phys r1.1 addr
  (r2.1, (r1.2 <<< 8) ||| r2.2)

/-- mem_readw_phys of the source: in-bounds execute pointer, else
in-bounds word read handler, else two byte reads. -/
def mem_readw_phys (s0 : PhysState) (addr : Nat) : PhysState × Nat :=
  let s := { s0 with mem_logical_addr := 0xffffffff }
  match s.mem_exec (addr >>> Mmu.MEM_GRANULARITY_BITS) with
  | some f =>
      if addr ≤ MEM_GRANULARITY_HBOUND then
        (s, exec_read16 f (addr &&& MEM_GRANULARITY_MASK))
      else readw_fallback s addr
  | none =>
      if addr ≤ MEM_GRANULARITY_HBOUND then
        match s.read_mapping (addr >>> Mmu.MEM_GRANULARITY_BITS) with
        | some m =>
            match m.read_w with
            | some f => (s, f addr &&& 0xffff)
            | none => readw_fallback s addr
        | none => readw_fallback s addr
      else readw_fallback s addr

/-- The word-pair fallback of mem_readl_phys. -/
def readl_fallback (s : PhysState) (addr : Nat) : PhysState × Nat :=
  let r1 := mem_readw_phys s (addr + 2)
  let r2 := mem_readw_phys r1.1 addr
  (r2.1, (r1.2 <<< 16) ||| r2.2)

/-- mem_readl_phys of the source. -/
def mem_readl_phys (s0 : PhysState) (addr : Nat) : PhysState × Nat :=
  let s := { s0 with mem_logical_addr := 0xffffffff }
  match s.mem_exec (addr >>> Mmu.MEM_GRANULARITY_BITS) with
  | some f =>
      if addr ≤ MEM_GRANULARITY_QBOUND then
        (s, exec_read32 f (addr &&& MEM_GRANULARITY_MASK))
      else readl_fallback s addr
  | none =>
      if addr ≤ MEM_GRANULARITY_QBOUND then
        match s.read_mapping (addr >>> Mmu.MEM_GRANULARITY_BITS) with
        | some m =>
            match m.read_l with
            | some f => (s, f addr &&& 0xffffffff)
            | none => readl_fallback s addr
        | none => readl_fallback s addr
      else readl_fallback s addr

/-- What mem_read_phys stored through its destination pointer: nothing,
or one value of the width of the taken branch. -/
inductive ReadDest where
  | untouched : ReadDest
  | stored32 (v : Nat) : ReadDest
  | stored16 (v : Nat) : ReadDest
  | stored8 (v : Nat) : ReadDest
deriving DecidableEq

/-- mem_read_phys of the source, including its duplicated transfer_size
4 test: the third branch repeats the first condition, so a byte-sized
transfer falls through every branch and stores nothing. -/
def mem_read_phys (s : PhysState) (addr transfer_size : Nat) : PhysState × ReadDest :=
  if transfer_size = 4 then
    let r := mem_readl_phys s addr
    (r.1, ReadDest.stored32 r.2)
  else if transfer_size = 2 then
    let r := mem_readw_phys s addr
    (r.1, ReadDest.stored16 r.2)
  else if transfer_size = 4 then
    let r := mem_readb_phys s addr
    (r.1, ReadDest.stored8 r.2)
  else (s, ReadDest.untouched)

/-- Store of one byte into a direct execute chunk. -/
def exec_store (s : PhysState) (chunk off val : Nat) (f : Nat → Nat) : PhysState :=
  { s with mem_exec := fupd s.mem_exec chunk (some (fupd f off val)) }

/-- mem_writeb_phys of the source: store through the execute pointer,
else call the byte write handler (recorded as an event), else drop. -/
def mem_writeb_phys (s0 : PhysState) (addr val : Nat) : PhysState × List PhysEvent :=
  let s := { s0 with mem_logical_addr := 0xffffffff }
  match s.mem_exec (addr >>> Mmu.MEM_GRANULARITY_BITS) with
  | some f => (exec_store s (addr >>> Mmu.MEM_GRANULARITY_BITS) (addr &&& MEM_GRANULARITY_MASK) val f, [])
  | none =>
      match s.write_mapping (addr >>> Mmu.MEM_GRANULARITY_BITS) with
      | some m => if m.write_b then (s, [PhysEvent.wb addr val]) else (s, [])
      | none => (s, [])

/-- The byte-pair fallback of mem_writew_phys, in source order. -/
def writew_fallback (s : PhysState) (addr val : Nat) : PhysState × List PhysEvent :=
  let r1 := mem_writeb_phys s addr (val &&& 0xff)
  let r2 := mem_writeb_phys r1.1 (addr + 1) ((val >>> 8) &&& 0xff)
  (r2.1, r1.2 ++ r2.2)

/-- mem_writew_phys of the source. -/
def mem_writew_phys (s0 : PhysState) (addr val : Nat) : PhysState × List PhysEvent :=
  let s := { s0 with mem_logical_addr := 0xffffffff }
  match s.mem_exec (addr >>> Mmu.MEM_GRANULARITY_BITS) with
  | some f =>
      if addr ≤ MEM_GRANULARITY_HBOUND then
        (exec_store (exec_store s (addr >>> Mmu.MEM_GRANULARITY_BITS)
            (addr &&& MEM_GRANULARITY_MASK) (val &&& 0xff) f)
          (addr >>> Mmu.MEM_GRANULARITY_BITS)
          ((addr &&& MEM_GRANULARITY_MASK) + 1) ((val >>> 8) &&& 0xff)
          (fupd f (addr &&& MEM_GRANULARITY_MASK) (val &&& 0xff)), [])
      else writew_fallback s addr val
  | none =>
      if addr ≤ MEM_GRANULARITY_HBOUND then
        match s.write_mapping (addr >>> Mmu.MEM_GRANULARITY_BITS) with
        | some m => if m.write_w then (s, [PhysEvent.ww addr val]) else writew_fallback s addr val
        | none => writew_fallback s addr val
      else writew_fallback s addr val

/-- The word-pair fallback of mem_writel_phys, in source order. -/
def writel_fallback (s : PhysState) (addr val : Nat) : PhysState × List PhysEvent :=
  let r1 := mem_writew_phys s addr (val &&& 0xffff)
  let r2 := mem_writew_phys r1.1 (addr + 2) ((val >>> 16) &&& 0xffff)
  (r2.1, r1.2 ++ r2.2)

/-- mem_writel_phys of the source. -/
def mem_writel_phys (s0 : PhysState) (addr val : Nat) : PhysState × List PhysEvent :=
  let s := { s0 with mem_logical_addr := 0xffffffff }
  match s.mem_exec (addr >>> Mmu.MEM_GRANULARITY_BITS) with
  | some f =>
      if addr ≤ MEM_GRANULARITY_QBOUND then
        (exec_store (exec_store (exec_store (exec_store s
              (addr >>> Mmu.MEM_GRANULARITY_BITS)
              (addr &&& MEM_GRANULARITY_MASK) (val &&& 0xff) f)
            (addr >>> Mmu.MEM_GRANULARITY_BITS)
            ((addr &&& MEM_GRANULARITY_MASK) + 1) ((val >>> 8) &&& 0xff)
            (fupd f (addr &&& MEM_GRANULARITY_MASK) (val &&& 0xff)))
          (addr >>> Mmu.MEM_GRANULARITY_BITS)
          ((addr &&& MEM_GRANULARITY_MASK) + 2) ((val >>> 16) &&& 0xff)
          (fupd (fupd f (addr &&& MEM_GRANULARITY_MASK) (val &&& 0xff))
            ((addr &&& MEM_GRANULARITY_MASK) + 1) ((val >>> 8) &&& 0xff)))
        (addr >>> Mmu.MEM_GRANULARITY_BITS)
        ((addr &&& MEM_GRANULARITY_MASK) + 3) ((val >>> 24) &&& 0xff)
        (fupd (fupd (fupd f (addr &&& MEM_GRANULARITY_MASK) (val &&& 0xff))
            ((addr &&& MEM_GRANULARITY_MASK) + 1) ((val >>> 8) &&& 0xff))
          ((addr &&& MEM_GRANULARITY_MASK) + 2) ((val >>> 16) &&& 0xff)), [])
      else writel_fallback s addr val
  | none =>
      if addr ≤ MEM_GRANULARITY_QBOUND then
        match s.write_mapping (addr >>> Mmu.MEM_GRANULARITY_BITS) with
        | some m => if m.write_l then (s, [PhysEvent.wl addr val]) else writel_fallback s addr val
        | none => writel_fallback s addr val
      else writel_fallback s addr val

/-- Little-endian 16-bit load from the source buffer of mem_write_phys
(the host pointer cast on a little-endian host). -/
def src_le16 (src : Nat → Nat) : Nat :=
  (src 0 &&& 0xff) ||| ((src 1 &&& 0xff) <<< 8)

/-- Little-endian 32-bit load from the source buffer. -/
def src_le32 (src : Nat → Nat) : Nat :=
  src_le16 src ||| ((((src 2 &&& 0xff) ||| ((src 3 &&& 0xff) <<< 8))) <<< 16)

/-- mem_write_phys of the source: dword for transfer_size 4, word for 2,
and a single byte for every other transfer_size. -/
def mem_write_phys (s : PhysState) (src : Nat → Nat) (addr transfer_size : Nat) :
    PhysState × List PhysEvent :=
  if transfer_size = 4 then mem_writel_phys s addr (src_le32 src)
  else if transfer_size = 2 then mem_writew_phys s addr (src_le16 src)
  else mem_writeb_phys s addr (src 0)

end Phys

namespace Reg

/-- Modelled from the spec: mapping flag for external-bus mappings
(header constant outside src; the claims do not depend on the numeric
values of the flag and visibility constants, only on their being
distinct). -/
def MEM_MAPPING_EXTERNAL : Nat := 1

/-- Modelled from the spec: mapping flag for internal (RAM) mappings. -/
def MEM_MAPPING_INTERNAL : Nat := 2

/-- Modelled from the spec: mapping flag for ROM mappings. -/
def MEM_MAPPING_ROM : Nat := 4

/-- Modelled from the spec: mapping flag for chip-select-gated ROM. -/
def MEM_MAPPING_ROMCS : Nat := 8

/-- Modelled from the spec: mask of the read visibility code inside a
chunk state word. -/
def MEM_READ_MASK : Nat := 0xf

/-- Modelled from the spec: read visibility codes (header constants
outside src). -/
def MEM_READ_DISABLED : Nat := 0

/-- Modelled from the spec: reads served by internal mappings. -/
def MEM_READ_INTERNAL : Nat := 1

/-- Modelled from the spec: reads served by external, non-ROMCS
mappings. -/
def MEM_READ_EXTERNAL : Nat := 2

/-- Modelled from the spec: reads served by any mapping. -/
def MEM_READ_ANY : Nat := 3

/-- Modelled from the spec: the SMM pass-through code (the SMM half of a
state word equal to this defers to the non-SMM half). -/
def MEM_READ_NORMAL : Nat := 4

/-- Modelled from the spec: reads served by external ROMCS mappings. -/
def MEM_READ_ROMCS : Nat := 5

/-- Modelled from the spec: reads served by any external mapping. -/
def MEM_READ_EXTANY : Nat := 6

/-- Modelled from the spec: the execution-sensitive external read
code. -/
def MEM_READ_EXTERNAL_EX : Nat := 7

/-- Modelled from the spec: mask of the write visibility code. -/
def MEM_WRITE_MASK : Nat := 0xf0

/-- Modelled from the spec: write visibility codes. -/
def MEM_WRITE_DISABLED : Nat := 0

/-- Modelled from the spec: writes served by internal mappings. -/
def MEM_WRITE_INTERNAL : Nat := 0x10

/-- Modelled from the spec: writes served by external non-ROMCS
mappings. -/
def MEM_WRITE_EXTERNAL : Nat := 0x20

/-- Modelled from the spec: writes served by any mapping. -/
def MEM_WRITE_ANY : Nat := 0x30

/-- Modelled from the spec: the SMM pass-through write code. -/
def MEM_WRITE_NORMAL : Nat := 0x40

/-- Modelled from the spec: writes served by external ROMCS mappings. -/
def MEM_WRITE_ROMCS : Nat := 0x50

/-- Modelled from the spec: writes served by any external mapping. -/
def MEM_WRITE_EXTANY : Nat := 0x60

/-- Modelled from the spec: shift of the SMM half of a state word. -/
def MEM_STATE_SMM_SHIFT : Nat := 8

/-- Chunk granularity in bytes (1 shifted by the granularity bits). -/
def MEM_GRANULARITY_SIZE : Nat := 4096

/-- The configured translation cache size of the source (the global int
cachesize, initialised to 256). -/
def cachesize : Nat := 256

/-- mem_mapping_read_allowed of the source: pick the SMM half of the
state word when in SMM and it is not the pass-through code, then switch
on the visibility code.  The fatal() default of the source aborts the
process; it is modelled as refusing the mapping. -/
def mem_mapping_read_allowed (flags state : Nat) (ex : Bool) (smm : Bool) : Bool :=
  let smm_state := state >>> MEM_STATE_SMM_SHIFT
  let st := if smm && (smm_state &&& MEM_READ_MASK != MEM_READ_NORMAL) then smm_state else state
  let sel := st &&& MEM_READ_MASK
  if sel = MEM_READ_DISABLED then false
  else if sel = MEM_READ_ANY then true
  else if sel = MEM_READ_EXTERNAL then
    (flags &&& MEM_MAPPING_INTERNAL == 0) && (flags &&& MEM_MAPPING_ROMCS == 0)
  else if sel = MEM_READ_ROMCS then
    (flags &&& MEM_MAPPING_INTERNAL == 0) && (flags &&& MEM_MAPPING_ROMCS != 0)
  else if sel = MEM_READ_EXTANY then flags &&& MEM_MAPPING_INTERNAL == 0
  else if sel = MEM_READ_EXTERNAL_EX then
    (if ex then flags &&& MEM_MAPPING_EXTERNAL == 0 else flags &&& MEM_MAPPING_INTERNAL == 0)
  else if sel = MEM_READ_INTERNAL then flags &&& MEM_MAPPING_EXTERNAL == 0
  else false

/-- mem_mapping_write_allowed of the source. -/
def mem_mapping_write_allowed (flags state : Nat) (smm : Bool) : Bool :=
  let smm_state := state >>> MEM_STATE_SMM_SHIFT
  let st := if smm && (smm_state &&& MEM_WRITE_MASK != MEM_WRITE_NORMAL) then smm_state else state
  let sel := st &&& MEM_WRITE_MASK
  if sel = MEM_WRITE_DISABLED then false
  else if sel = MEM_WRITE_ANY then true
  else if sel = MEM_WRITE_EXTERNAL then
    (flags &&& MEM_MAPPING_INTERNAL == 0) && (flags &&& MEM_MAPPING_ROMCS == 0)
  else if sel = MEM_WRITE_ROMCS then
    (flags &&& MEM_MAPPING_INTERNAL == 0) && (flags &&& MEM_MAPPING_ROMCS != 0)
  else if sel = MEM_WRITE_EXTANY then flags &&& MEM_MAPPING_INTERNAL == 0
  else if sel = MEM_WRITE_INTERNAL then flags &&& MEM_MAPPING_EXTERNAL == 0
  else false

/-- One mem_mapping_t descriptor: range, enable flag, flags, and the
presence of each accessor (the handler pointers of the source reduced to
presence, which is all the registry logic inspects). -/
structure MemMap where
  base : Nat := 0
  size : Nat := 0
  enable : Bool := false
  flags : Nat := 0
  read_b : Bool := false
  read_w : Bool := false
  read_l : Bool := false
  write_b : Bool := false
  write_w : Bool := false
  write_l : Bool := false
  exec : Bool := false

/-- The chunk dispatch tables, each entry naming the owning mapping by
its registration index (the pointer of the source). -/
structure Tables where
  read_mapping : Nat → Option Nat := fun _ => none
  write_mapping : Nat → Option Nat := fun _ => none
  mem_exec : Nat → Option Nat := fun _ => none

/-- The translation caches: the ring slot arrays (a virtual page number
or the 0xffffffff sentinel), the stored permission bits, the reverse maps
keyed by virtual page (host bias as a signed offset, or the owning page
index for page_lookup), and the ring pointers. -/
structure Tlb where
  readlookup : Nat → Nat := fun _ => 0xffffffff
  readlookupp : Nat → Nat := fun _ => 0
  readlookup2 : Nat → Option Int := fun _ => none
  readlnext : Nat := 0
  writelookup : Nat → Nat := fun _ => 0xffffffff
  writelookupp : Nat → Nat := fun _ => 0
  writelookup2 : Nat → Option Int := fun _ => none
  writelnext : Nat := 0
  page_lookup : Nat → Option Nat := fun _ => none

/-- The state of the Region Registry component: the mapping list in
registration order, the visibility state words, the SMM flag, the derived
chunk tables, the translation caches, and the page-table inputs of
addwritelookup. -/
structure RegState where
  mappings : List MemMap := []
  mem_state : Nat → Nat := fun _ => 0
  in_smm : Bool := false
  tables : Tables := { }
  tlb : Tlb := { }
  pages_block : Nat → Bool := fun _ => false
  recomp_page : Nat := 0xffffffff
  mmu_perm : Nat := 4

/-- The clearing loop at the top of mem_mapping_recalc: reset the three
tables for every granularity chunk of the recalculated window. -/
def clearChunks (tb : Tables) (c stop : Nat) : Tables :=
  if h : c < stop then
    clearChunks
      { tb with
        read_mapping := fupd tb.read_mapping (c >>> Mmu.MEM_GRANULARITY_BITS) none,
        write_mapping := fupd tb.write_mapping (c >>> Mmu.MEM_GRANULARITY_BITS) none,
        mem_exec := fupd tb.mem_exec (c >>> Mmu.MEM_GRANULARITY_BITS) none }
      (c + MEM_GRANULARITY_SIZE) stop
  else tb
termination_by stop - c
decreasing_by simp only [MEM_GRANULARITY_SIZE]; omega

/-- One iteration of the per-mapping chunk loop of mem_mapping_recalc:
install the mapping for the chunk of address c in each table whose
accessors it offers and whose visibility the chunk state permits, in
source order (read, exec, write). -/
def applyMapChunk1 (ms : Nat → Nat) (smm : Bool) (idx : Nat) (m : MemMap) (tb : Tables)
    (c : Nat) : Tables :=
  let i := c >>> Mmu.MEM_GRANULARITY_BITS
  let tb1 := if (m.read_b || m.read_w || m.read_l) &&
                mem_mapping_read_allowed m.flags (ms i) false smm
             then { tb with read_mapping := fupd tb.read_mapping i (some idx) } else tb
  let tb2 := if m.exec && mem_mapping_read_allowed m.flags (ms i) true smm
             then { tb1 with mem_exec := fupd tb1.mem_exec i (some idx) } else tb1
  if (m.write_b || m.write_w || m.write_l) &&
     mem_mapping_write_allowed m.flags (ms i) smm
  then { tb2 with write_mapping := fupd tb2.write_mapping i (some idx) } else tb2

/-- The per-mapping chunk loop of mem_mapping_recalc. -/
def applyMapChunks (ms : Nat → Nat) (smm : Bool) (idx : Nat) (m : MemMap) (tb : Tables)
    (c stop : Nat) : Tables :=
  if h : c < stop then
    applyMapChunks ms smm idx m (applyMapChunk1 ms smm idx m tb c)
      (c + MEM_GRANULARITY_SIZE) stop
  else tb
termination_by stop - c
decreasing_by simp only [MEM_GRANULARITY_SIZE]; omega

/-- The mapping-list walk of mem_mapping_recalc: in registration order,
every enabled mapping intersecting the window writes its chunks (the
start and stop computation follows the source statement for statement). -/
def recalcWalk (ms : Nat → Nat) (smm : Bool) (tb : Tables) (maps : List MemMap)
    (idx base size : Nat) : Tables :=
  match maps with
  | [] => tb
  | m :: rest =>
      let tb1 :=
        if m.enable = true ∧ m.base < base + size ∧ m.base + m.size > base then
          let start0 := if m.base < base then m.base else base
          let start := if start0 < m.base then m.base else start0
          let stop := if m.base + m.size < base + size then m.base + m.size else base + size
          applyMapChunks ms smm idx m tb start stop
        else tb
      recalcWalk ms smm tb1 rest (idx + 1) base size

/-- The read half of one iteration of the flush loops: when the read
slot is valid, clear its reverse entry and invalidate the slot. -/
def flushSlotRead (t : Tlb) (c : Nat) : Tlb :=
  if t.readlookup c ≠ 0xffffffff then
    { t with readlookup2 := fupd t.readlookup2 (t.readlookup c) none,
             readlookup := fupd t.readlookup c 0xffffffff }
  else t

/-- The write half of one iteration of the flush loops: when the write
slot is valid, clear its page_lookup entry and its reverse entry, and
invalidate the slot. -/
def flushSlotWrite (t : Tlb) (c : Nat) : Tlb :=
  if t.writelookup c ≠ 0xffffffff then
    { t with page_lookup := fupd t.page_lookup (t.writelookup c) none,
             writelookup2 := fupd t.writelookup2 (t.writelookup c) none,
             writelookup := fupd t.writelookup c 0xffffffff }
  else t

/-- One iteration of the flush loops shared by flushmmucache,
flushmmucache_nopc and flushmmucache_cr3: invalidate the read slot and
its reverse entry, then the write slot, its reverse entry and its
page_lookup entry. -/
def flushSlot (t : Tlb) (c : Nat) : Tlb := flushSlotWrite (flushSlotRead t c) c

/-- The 256-slot flush loop. -/
def flushLoop (t : Tlb) (c : Nat) : Tlb :=
  if h : c < 256 then flushLoop (flushSlot t c) (c + 1) else t
termination_by 256 - c

/-- flushmmucache_cr3 of the source, called at the end of every
recalculation. -/
def flushmmucache_cr3 (t : Tlb) : Tlb := flushLoop t 0

/-- mem_mapping_recalc of the source: nothing at all for an empty
window, otherwise clear the window, walk the registry, and flush both
translation caches. -/
def mem_mapping_recalc (s : RegState) (base size : Nat) : RegState :=
  if size = 0 then s
  else
    { s with
      tables := recalcWalk s.mem_state s.in_smm (clearChunks s.tables base (base + size))
                  s.mappings 0 base size,
      tlb := flushmmucache_cr3 s.tlb }

/-- mem_mapping_add of the source: append to the registry (enable iff
the size is nonzero) and recalculate the new range. -/
def mem_mapping_add (s : RegState) (m : MemMap) : RegState :=
  let m2 := { m with enable := m.size != 0 }
  let s2 := { s with mappings := s.mappings ++ [m2] }
  mem_mapping_recalc s2 m2.base m2.size

/-- mem_mapping_disable of the source, the mapping named by its
registration index. -/
def mem_mapping_disable (s : RegState) (i : Nat) : RegState :=
  match s.mappings[i]? with
  | some m =>
      mem_mapping_recalc { s with mappings := s.mappings.set i { m with enable := false } }
        m.base m.size
  | none => s

/-- mem_mapping_enable of the source. -/
def mem_mapping_enable (s : RegState) (i : Nat) : RegState :=
  match s.mappings[i]? with
  | some m =>
      mem_mapping_recalc { s with mappings := s.mappings.set i { m with enable := true } }
        m.base m.size
  | none => s

/-- mem_mapping_del of the source: disable (which recalculates), then
unlink from the registry list. -/
def mem_mapping_del (s : RegState) (i : Nat) : RegState :=
  let s2 := mem_mapping_disable s i
  { s2 with mappings := s2.mappings.eraseIdx i }

/-- mem_mapping_set_addr of the source: disable and recalculate the old
range, then move, re-enable and recalculate the new range. -/
def mem_mapping_set_addr (s : RegState) (i base size : Nat) : RegState :=
  match s.mappings[i]? with
  | some m =>
      let s2 := mem_mapping_recalc
        { s with mappings := s.mappings.set i { m with enable := false } } m.base m.size
      match s2.mappings[i]? with
      | some m2 =>
          let m3 := { m2 with enable := true, base := base, size := size }
          mem_mapping_recalc { s2 with mappings := s2.mappings.set i m3 } base size
      | none => s2
  | none => s

/-- mem_mapping_set_handler of the source: rebind the accessors and
recalculate the range of the mapping. -/
def mem_mapping_set_handler (s : RegState) (i : Nat) (rb rw rl wb ww wl : Bool) : RegState :=
  match s.mappings[i]? with
  | some m =>
      let m2 := { m with read_b := rb, read_w := rw, read_l := rl,
                         write_b := wb, write_w := ww, write_l := wl }
      mem_mapping_recalc { s with mappings := s.mappings.set i m2 } m.base m.size
  | none => s

/-- addreadlookup of the source over the translation cache state, the
globals mmu_perm and cachesize passed explicitly (the sub_cycles call is
cycle accounting outside this state). -/
def addreadlookup (t : Tlb) (mmu_perm virt phys : Nat) : Tlb :=
  if virt = 0xffffffff then t
  else if (t.readlookup2 (virt >>> 12)).isSome then t
  else
    let t1 := if t.readlookup t.readlnext ≠ 0xffffffff then
        { t with readlookup2 := fupd t.readlookup2 (t.readlookup t.readlnext) none }
      else t
    let bias : Int := ((phys &&& 0xfffff000 : Nat) : Int) - ((virt &&& 0xfffff000 : Nat) : Int)
    let t2 := { t1 with readlookup2 := fupd t1.readlookup2 (virt >>> 12) (some bias) }
    let t3 := { t2 with readlookupp := fupd t2.readlookupp t2.readlnext mmu_perm,
                        readlookup := fupd t2.readlookup t2.readlnext (virt >>> 12) }
    { t3 with readlnext := (t3.readlnext + 1) &&& (cachesize - 1) }

/-- addwritelookup of the source (USE_NEW_DYNAREC form of the code-page
test), the globals passed explicitly: note that its early-out consults
only page_lookup, not writelookup2. -/
def addwritelookup (t : Tlb) (mmu_perm : Nat) (pages_block : Nat → Bool)
    (recomp_page virt phys : Nat) : Tlb :=
  if virt = 0xffffffff then t
  else if (t.page_lookup (virt >>> 12)).isSome then t
  else
    let t1 := if t.writelookup t.writelnext ≠ 0xffffffff then
        { t with page_lookup := fupd t.page_lookup (t.writelookup t.writelnext) none,
                 writelookup2 := fupd t.writelookup2 (t.writelookup t.writelnext) none }
      else t
    let t2 := if pages_block (phys >>> 12) || (phys &&& 0xfffff000 == recomp_page) then
        { t1 with page_lookup := fupd t1.page_lookup (virt >>> 12) (some (phys >>> 12)) }
      else
        let bias : Int := ((phys &&& 0xfffff000 : Nat) : Int) - ((virt &&& 0xfffff000 : Nat) : Int)
        { t1 with writelookup2 := fupd t1.writelookup2 (virt >>> 12) (some bias) }
    let t3 := { t2 with writelookupp := fupd t2.writelookupp t2.writelnext mmu_perm,
                        writelookup := fupd t2.writelookup t2.writelnext (virt >>> 12) }
    { t3 with writelnext := (t3.writelnext + 1) &&& (cachesize - 1) }

/-- Full invalidation of both translation caches relative to the cache
state before the flush: every slot of both rings is the sentinel, and
the reverse entries (readlookup2, writelookup2, page_lookup) of every
virtual page that occupied a valid slot are cleared. -/
def tlbFlushed (t0 t : Tlb) : Prop :=
  (∀ j, j < 256 → t.readlookup j = 0xffffffff ∧ t.writelookup j = 0xffffffff) ∧
  (∀ j, j < 256 → t0.readlookup j ≠ 0xffffffff → t.readlookup2 (t0.readlookup j) = none) ∧
  (∀ j, j < 256 → t0.writelookup j ≠ 0xffffffff →
     t.writelookup2 (t0.writelookup j) = none ∧ t.page_lookup (t0.writelookup j) = none)

/-- The uniqueness discipline of the read translation cache: the ring
pointer is in range, every valid slot has a live reverse entry, and no
virtual page occupies two valid slots. -/
def readInv (t : Tlb) : Prop :=
  t.readlnext < 256 ∧
  (∀ c, c < 256 → t.readlookup c ≠ 0xffffffff → (t.readlookup2 (t.readlookup c)).isSome = true) ∧
  (∀ c, c < 256 → ∀ cq, cq < 256 → c ≠ cq → t.readlookup c ≠ 0xffffffff →
     t.readlookup c ≠ t.readlookup cq)

end Reg

/-- Concrete first mapping of the C4 scenario: 8 KiB at 0 with byte
read and write handlers, enabled. -/
def c4A : Reg.MemMap :=
  { base := 0, size := 8192, enable := true, read_b := true, write_b := true }

/-- Concrete second mapping of the C4 scenario: 4 KiB at 0x1000 with
byte read and write handlers. -/
def c4B : Reg.MemMap :=
  { base := 4096, size := 4096, read_b := true, write_b := true }

/-- Concrete registry state of the C4 scenario: only c4A registered,
every chunk state admitting any reader and writer. -/
def c4S : Reg.RegState :=
  { mappings := [c4A], mem_state := fun _ => 0x33 }

theorem fupd_same {α : Type} (f : Nat → α) (i : Nat) (v : α) : fupd f i v i = v := by
  simp [fupd]

theorem fupd_other {α : Type} (f : Nat → α) (i j : Nat) (v : α) (h : j ≠ i) :
    fupd f i v j = f j := by
  simp [fupd, h]

namespace Mmu

theorem pf_error_bits (e c : Nat) (rw : Bool) :
    pf_error e c rw &&& 1 = e &&& 1 ∧
    pf_error e c rw &&& 2 = (if rw then 2 else 0) ∧
    pf_error e c rw &&& 4 = (if c = 3 then 4 else 0) := by
  unfold pf_error
  rw [Nat.and_one_is_mod e]
  rcases Nat.mod_two_eq_zero_or_one e with h | h <;> rw [h] <;>
    cases rw <;> by_cases hc : c = 3 <;> simp [hc] <;> decide

theorem nrm_fault_spec (s : MState) (addr : Nat) (rw : Bool) (h : s.abrt = false)
    (hf : (mmutranslatereal_normal s addr rw).1 = SENT) :
    (mmutranslatereal_normal s addr rw).2 = page_fault s addr (nrm_failent s addr) rw := by
  have b1 : nrm_dirent s addr &&& 0xffc00000 ≤ 0xffc00000 := Nat.and_le_right
  have b2 : addr &&& 0x3fffff ≤ 0x3fffff := Nat.and_le_right
  have b3 : nrm_tabent s addr &&& 0xfffff000 ≤ 0xfffff000 := Nat.and_le_right
  have b4 : addr &&& 0xfff ≤ 0xfff := Nat.and_le_right
  unfold mmutranslatereal_normal at hf ⊢
  unfold nrm_failent
  simp only [h, Bool.false_eq_true, if_false, SENT] at hf ⊢
  split_ifs at hf ⊢ <;> first | rfl | omega

theorem pae_fault_spec (s : MState) (addr : Nat) (rw : Bool) (h : s.abrt = false)
    (hf : (mmutranslatereal_pae s addr rw).1 = SENT) :
    (mmutranslatereal_pae s addr rw).2 = page_fault s addr (pae_failent s addr) rw := by
  have b1 : ((pae_dirent s addr &&& 0xffffffffffe00000) + (addr &&& 0x1fffff)) &&& 0x000000ffffffffff
      ≤ 0x000000ffffffffff := Nat.and_le_right
  have b2 : ((pae_tabent s addr &&& 0xfffffffffffff000) + (addr &&& 0xfff)) &&& 0x000000ffffffffff
      ≤ 0x000000ffffffffff := Nat.and_le_right
  unfold mmutranslatereal_pae at hf ⊢
  unfold pae_failent
  simp only [h, Bool.false_eq_true, if_false, SENT] at hf ⊢
  split_ifs at hf ⊢ <;> first | rfl | omega

theorem nrm_fault_tab (s : MState) (addr : Nat) (rw : Bool)
    (hf : (mmutranslatereal_normal s addr rw).1 = SENT) :
    (mmutranslatereal_normal s addr rw).2.tab = s.tab ∧
    (mmutranslatereal_normal s addr rw).2.tab64 = s.tab64 := by
  by_cases h : s.abrt = true
  · unfold mmutranslatereal_normal
    simp [h]
  · rw [nrm_fault_spec s addr rw (Bool.not_eq_true s.abrt ▸ h) hf]
    exact ⟨rfl, rfl⟩

theorem pae_fault_tab (s : MState) (addr : Nat) (rw : Bool)
    (hf : (mmutranslatereal_pae s addr rw).1 = SENT) :
    (mmutranslatereal_pae s addr rw).2.tab = s.tab ∧
    (mmutranslatereal_pae s addr rw).2.tab64 = s.tab64 := by
  by_cases h : s.abrt = true
  · unfold mmutranslatereal_pae
    simp [h]
  · rw [pae_fault_spec s addr rw (Bool.not_eq_true s.abrt ▸ h) hf]
    exact ⟨rfl, rfl⟩

theorem nrm_fault_iff_abrt (s : MState) (addr : Nat) (rw : Bool) (h : s.abrt = false) :
    ((mmutranslatereal_normal s addr rw).1 = SENT ↔
      (mmutranslatereal_normal s addr rw).2.abrt = true) := by
  have b1 : nrm_dirent s addr &&& 0xffc00000 ≤ 0xffc00000 := Nat.and_le_right
  have b2 : addr &&& 0x3fffff ≤ 0x3fffff := Nat.and_le_right
  have b3 : nrm_tabent s addr &&& 0xfffff000 ≤ 0xfffff000 := Nat.and_le_right
  have b4 : addr &&& 0xfff ≤ 0xfff := Nat.and_le_right
  unfold mmutranslatereal_normal
  simp only [h, Bool.false_eq_true, if_false, SENT]
  split_ifs <;> simp [page_fault, rammap_or, h] <;> omega

theorem pae_fault_iff_abrt (s : MState) (addr : Nat) (rw : Bool) (h : s.abrt = false) :
    ((mmutranslatereal_pae s addr rw).1 = SENT ↔
      (mmutranslatereal_pae s addr rw).2.abrt = true) := by
  have b1 : ((pae_dirent s addr &&& 0xffffffffffe00000) + (addr &&& 0x1fffff)) &&& 0x000000ffffffffff
      ≤ 0x000000ffffffffff := Nat.and_le_right
  have b2 : ((pae_tabent s addr &&& 0xfffffffffffff000) + (addr &&& 0xfff)) &&& 0x000000ffffffffff
      ≤ 0x000000ffffffffff := Nat.and_le_right
  unfold mmutranslatereal_pae
  simp only [h, Bool.false_eq_true, if_false, SENT]
  split_ifs <;> simp [page_fault, rammap64_or, h] <;> omega

theorem nrm_noabrt_eq (s : MState) (addr : Nat) (rw : Bool) (hov : s.cpl_override = false) :
    mmutranslate_noabrt_normal s addr rw = (mmutranslatereal_normal s addr rw).1 := by
  unfold mmutranslate_noabrt_normal mmutranslatereal_normal
  simp only [hov, Bool.false_eq_true, not_false_iff, and_true]
  split_ifs <;> rfl

theorem pae_noabrt_eq (s : MState) (addr : Nat) (rw : Bool) (hov : s.cpl_override = false) :
    mmutranslate_noabrt_pae s addr rw = (mmutranslatereal_pae s addr rw).1 := by
  unfold mmutranslate_noabrt_pae mmutranslatereal_pae
  simp only [hov, Bool.false_eq_true, not_false_iff, and_true]
  split_ifs <;> rfl

theorem real_fault_tab (s : MState) (addr : Nat) (rw : Bool)
    (hf : (mmutranslatereal s addr rw).1 = SENT) :
    (mmutranslatereal s addr rw).2.tab = s.tab ∧
    (mmutranslatereal s addr rw).2.tab64 = s.tab64 := by
  unfold mmutranslatereal at hf ⊢
  by_cases h : s.cr4 &&& CR4_PAE ≠ 0
  · rw [if_pos h] at hf ⊢
    exact pae_fault_tab s addr rw hf
  · rw [if_neg h] at hf ⊢
    exact nrm_fault_tab s addr rw hf

theorem real_fault_iff_abrt (s : MState) (addr : Nat) (rw : Bool) (h : s.abrt = false) :
    ((mmutranslatereal s addr rw).1 = SENT ↔ (mmutranslatereal s addr rw).2.abrt = true) := by
  unfold mmutranslatereal
  by_cases hp : s.cr4 &&& CR4_PAE ≠ 0
  · rw [if_pos hp]
    exact pae_fault_iff_abrt s addr rw h
  · rw [if_neg hp]
    exact nrm_fault_iff_abrt s addr rw h

theorem readmembl_fault (s : MState) (addr : Nat)
    (hp : s.cr0 >>> 31 ≠ 0)
    (hf : (mmutranslatereal (set_mla s addr) addr false).1 = SENT) :
    readmembl s addr = (0xff, (mmutranslatereal (set_mla s addr) addr false).2) := by
  simp only [readmembl]
  rw [if_pos (show (set_mla s addr).cr0 >>> 31 ≠ 0 from hp), if_pos hf]

theorem readmembl_unmapped (s : MState) (addr : Nat)
    (hp : s.cr0 >>> 31 ≠ 0)
    (hnf : (mmutranslatereal (set_mla s addr) addr false).1 ≠ SENT)
    (hle : (mmutranslatereal (set_mla s addr) addr false).1 ≤ 0xffffffff)
    (hnm : (mmutranslatereal (set_mla s addr) addr false).2.read_mapping
             (((mmutranslatereal (set_mla s addr) addr false).1 &&&
               (mmutranslatereal (set_mla s addr) addr false).2.rammask) >>>
              MEM_GRANULARITY_BITS) = none ∨
           ∃ m, (mmutranslatereal (set_mla s addr) addr false).2.read_mapping
             (((mmutranslatereal (set_mla s addr) addr false).1 &&&
               (mmutranslatereal (set_mla s addr) addr false).2.rammask) >>>
              MEM_GRANULARITY_BITS) = some m ∧ m.read_b = none) :
    readmembl s addr = (0xff, (mmutranslatereal (set_mla s addr) addr false).2) := by
  have hgt : ¬ ((mmutranslatereal (set_mla s addr) addr false).1 > 0xffffffff) := by omega
  simp only [readmembl]
  rw [if_pos (show (set_mla s addr).cr0 >>> 31 ≠ 0 from hp), if_neg hnf, if_neg hgt]
  unfold readmembl_dispatch
  rcases hnm with h | ⟨m, hm, hb⟩
  · rw [h]
  · rw [hm]
    simp [hb]

theorem readmembl_unmapped_nopaging (s : MState) (addr : Nat)
    (hp : s.cr0 >>> 31 = 0)
    (hnm : s.read_mapping ((addr &&& s.rammask) >>> MEM_GRANULARITY_BITS) = none ∨
           ∃ m, s.read_mapping ((addr &&& s.rammask) >>> MEM_GRANULARITY_BITS) = some m ∧
             m.read_b = none) :
    readmembl s addr = (0xff, set_mla s addr) := by
  simp only [readmembl]
  rw [if_neg (show ¬ ((set_mla s addr).cr0 >>> 31 ≠ 0) from fun hq => hq hp)]
  unfold readmembl_dispatch
  rcases hnm with h | ⟨m, hm, hb⟩
  · rw [show (set_mla s addr).read_mapping ((addr &&& (set_mla s addr).rammask) >>>
        MEM_GRANULARITY_BITS) = none from h]
  · rw [show (set_mla s addr).read_mapping ((addr &&& (set_mla s addr).rammask) >>>
        MEM_GRANULARITY_BITS) = some m from hm]
    simp [hb]

theorem writemembl_fault (s : MState) (addr val : Nat)
    (hpl : s.page_lookup (addr >>> 12) = none)
    (hp : s.cr0 >>> 31 ≠ 0)
    (hf : (mmutranslatereal (set_mla s addr) addr true).1 = SENT) :
    writemembl s addr val = ((mmutranslatereal (set_mla s addr) addr true).2, WriteEff.noWrite) := by
  simp only [writemembl]
  rw [show (set_mla s addr).page_lookup (addr >>> 12) = none from hpl]
  rw [if_pos (show (set_mla s addr).cr0 >>> 31 ≠ 0 from hp), if_pos hf]

theorem writemembl_unmapped (s : MState) (addr val : Nat)
    (hpl : s.page_lookup (addr >>> 12) = none)
    (hp : s.cr0 >>> 31 ≠ 0)
    (hnf : (mmutranslatereal (set_mla s addr) addr true).1 ≠ SENT)
    (hle : (mmutranslatereal (set_mla s addr) addr true).1 ≤ 0xffffffff)
    (hnm : (mmutranslatereal (set_mla s addr) addr true).2.write_mapping
             (((mmutranslatereal (set_mla s addr) addr true).1 &&&
               (mmutranslatereal (set_mla s addr) addr true).2.rammask) >>>
              MEM_GRANULARITY_BITS) = none ∨
           ∃ m, (mmutranslatereal (set_mla s addr) addr true).2.write_mapping
             (((mmutranslatereal (set_mla s addr) addr true).1 &&&
               (mmutranslatereal (set_mla s addr) addr true).2.rammask) >>>
              MEM_GRANULARITY_BITS) = some m ∧ m.write_b = false) :
    writemembl s addr val = ((mmutranslatereal (set_mla s addr) addr true).2, WriteEff.noWrite) := by
  have hgt : ¬ ((mmutranslatereal (set_mla s addr) addr true).1 > 0xffffffff) := by omega
  simp only [writemembl]
  rw [show (set_mla s addr).page_lookup (addr >>> 12) = none from hpl]
  rw [if_pos (show (set_mla s addr).cr0 >>> 31 ≠ 0 from hp), if_neg hnf, if_neg hgt]
  unfold writemembl_dispatch
  rcases hnm with h | ⟨m, hm, hb⟩
  · rw [h]
  · rw [hm]
    simp [hb]

theorem writemembl_unmapped_nopaging (s : MState) (addr val : Nat)
    (hpl : s.page_lookup (addr >>> 12) = none)
    (hp : s.cr0 >>> 31 = 0)
    (hnm : s.write_mapping ((addr &&& s.rammask) >>> MEM_GRANULARITY_BITS) = none ∨
           ∃ m, s.write_mapping ((addr &&& s.rammask) >>> MEM_GRANULARITY_BITS) = some m ∧
             m.write_b = false) :
    writemembl s addr val = (set_mla s addr, WriteEff.noWrite) := by
  simp only [writemembl]
  rw [show (set_mla s addr).page_lookup (addr >>> 12) = none from hpl]
  rw [if_neg (show ¬ ((set_mla s addr).cr0 >>> 31 ≠ 0) from fun hq => hq hp)]
  unfold writemembl_dispatch
  rcases hnm with h | ⟨m, hm, hb⟩
  · rw [show (set_mla s addr).write_mapping ((addr &&& (set_mla s addr).rammask) >>>
        MEM_GRANULARITY_BITS) = none from h]
  · rw [show (set_mla s addr).write_mapping ((addr &&& (set_mla s addr).rammask) >>>
        MEM_GRANULARITY_BITS) = some m from hm]
    simp [hb]

end Mmu

namespace Pg

theorem add_evict_prev (s : PageState) (pi : Nat) :
    ((page_add_to_evict_list s pi).pages pi).evict_prev = 0 := by
  simp [page_add_to_evict_list, fupd]

theorem add_in_list (s : PageState) (pi : Nat) :
    page_in_evict_list ((page_add_to_evict_list s pi).pages pi) := by
  unfold page_in_evict_list EVICT_NOT_IN_LIST
  rw [add_evict_prev]
  omega

theorem add_byte_code (s : PageState) (pi : Nat) :
    ((page_add_to_evict_list s pi).pages pi).byte_code_present_mask =
      (s.pages pi).byte_code_present_mask := by
  simp only [page_add_to_evict_list, fupd]
  split_ifs <;> simp_all

theorem store_fields (s : PageState) (addr val pi mask : Nat) :
    ((ramb_store s addr val pi mask).pages pi).code_present_mask =
      (s.pages pi).code_present_mask ∧
    ((ramb_store s addr val pi mask).pages pi).byte_code_present_mask =
      (s.pages pi).byte_code_present_mask ∧
    ((ramb_store s addr val pi mask).pages pi).evict_prev = (s.pages pi).evict_prev := by
  refine ⟨?_, ?_, ?_⟩ <;> simp [ramb_store, fupd]

theorem byte_dirty_fields (s : PageState) (pi bo bm : Nat) :
    ((ramb_byte_dirty s pi bo bm).pages pi).byte_code_present_mask =
      (s.pages pi).byte_code_present_mask ∧
    ((ramb_byte_dirty s pi bo bm).pages pi).evict_prev = (s.pages pi).evict_prev := by
  refine ⟨?_, ?_⟩ <;> simp [ramb_byte_dirty, fupd]

theorem check_block_in (s : PageState) (pi mask : Nat)
    (h : (s.pages pi).code_present_mask &&& mask ≠ 0 ∨
         page_in_evict_list (s.pages pi)) :
    page_in_evict_list ((evict_check_block s pi mask).pages pi) := by
  unfold evict_check_block
  by_cases hc : (s.pages pi).code_present_mask &&& mask ≠ 0 ∧
      ¬ page_in_evict_list (s.pages pi)
  · rw [if_pos hc]
    exact add_in_list s pi
  · rw [if_neg hc]
    rcases h with h | h
    · by_cases hl : page_in_evict_list (s.pages pi)
      · exact hl
      · exact absurd ⟨h, hl⟩ hc
    · exact h

theorem check_block_mono (s : PageState) (pi mask : Nat)
    (h : page_in_evict_list (s.pages pi)) :
    page_in_evict_list ((evict_check_block s pi mask).pages pi) :=
  check_block_in s pi mask (Or.inr h)

theorem check_block_byte_code (s : PageState) (pi mask : Nat) :
    ((evict_check_block s pi mask).pages pi).byte_code_present_mask =
      (s.pages pi).byte_code_present_mask := by
  unfold evict_check_block
  split_ifs with h
  · exact add_byte_code s pi
  · rfl

theorem check_byte_in (s : PageState) (pi bo bm : Nat)
    (h : (s.pages pi).byte_code_present_mask bo &&& bm ≠ 0 ∨
         page_in_evict_list (s.pages pi)) :
    page_in_evict_list ((evict_check_byte s pi bo bm).pages pi) := by
  unfold evict_check_byte
  by_cases hc : (s.pages pi).byte_code_present_mask bo &&& bm ≠ 0 ∧
      ¬ page_in_evict_list (s.pages pi)
  · rw [if_pos hc]
    exact add_in_list s pi
  · rw [if_neg hc]
    rcases h with h | h
    · by_cases hl : page_in_evict_list (s.pages pi)
      · exact hl
      · exact absurd ⟨h, hl⟩ hc
    · exact h

theorem write_steps_in_block {s : PageState} {addr val pi mask bo bm : Nat}
    (hc : (s.pages pi).code_present_mask &&& mask ≠ 0) :
    page_in_evict_list
      ((evict_check_byte
          (ramb_byte_dirty (evict_check_block (ramb_store s addr val pi mask) pi mask) pi bo bm)
          pi bo bm).pages pi) := by
  have h1 : page_in_evict_list
      ((evict_check_block (ramb_store s addr val pi mask) pi mask).pages pi) := by
    apply check_block_in
    left
    rw [(store_fields s addr val pi mask).1]
    exact hc
  have h2 : page_in_evict_list
      ((ramb_byte_dirty (evict_check_block (ramb_store s addr val pi mask) pi mask)
        pi bo bm).pages pi) := by
    unfold page_in_evict_list at h1 ⊢
    rw [(byte_dirty_fields _ pi bo bm).2]
    exact h1
  exact check_byte_in _ pi bo bm (Or.inr h2)

theorem write_steps_in_byte {s : PageState} {addr val pi mask bo bm : Nat}
    (hb : (s.pages pi).byte_code_present_mask bo &&& bm ≠ 0) :
    page_in_evict_list
      ((evict_check_byte
          (ramb_byte_dirty (evict_check_block (ramb_store s addr val pi mask) pi mask) pi bo bm)
          pi bo bm).pages pi) := by
  apply check_byte_in
  left
  rw [(byte_dirty_fields _ pi bo bm).1, check_block_byte_code _ pi mask,
    (store_fields s addr val pi mask).2.1]
  exact hb

theorem ramb_page_noop (s : PageState) (addr val pi : Nat)
    (hval : val = (s.pages pi).mem (addr &&& 0xfff))
    (hrec : s.codegen_in_recompile = false) :
    mem_write_ramb_page s addr val pi = s := by
  have hcond : ¬ (val ≠ (s.pages pi).mem (addr &&& 0xfff) ∨ s.codegen_in_recompile = true) := by
    simp [hval, hrec]
  unfold mem_write_ramb_page
  rw [if_neg hcond]

theorem ramb_page_evict (s : PageState) (addr val pi : Nat)
    (hchg : val ≠ (s.pages pi).mem (addr &&& 0xfff))
    (hcode : (s.pages pi).code_present_mask &&&
        (1 <<< ((addr >>> PAGE_MASK_SHIFT) &&& PAGE_MASK_MASK)) ≠ 0 ∨
      (s.pages pi).byte_code_present_mask
          ((addr >>> PAGE_BYTE_MASK_SHIFT) &&& PAGE_BYTE_MASK_OFFSET_MASK) &&&
        (1 <<< (addr &&& PAGE_BYTE_MASK_MASK)) ≠ 0) :
    page_in_evict_list ((mem_write_ramb_page s addr val pi).pages pi) := by
  simp only [mem_write_ramb_page]
  rw [if_pos (Or.inl hchg)]
  rcases hcode with hc | hb
  · exact write_steps_in_block hc
  · exact write_steps_in_byte hb

end Pg


namespace Reg

theorem flushSlotRead_parts (t : Tlb) (c : Nat) :
    (∀ j, (flushSlotRead t c).readlookup j = if j = c then 0xffffffff else t.readlookup j) ∧
    (∀ v, (flushSlotRead t c).readlookup2 v =
      if t.readlookup c = v ∧ v ≠ 0xffffffff then none else t.readlookup2 v) ∧
    (flushSlotRead t c).writelookup = t.writelookup ∧
    (flushSlotRead t c).writelookup2 = t.writelookup2 ∧
    (flushSlotRead t c).page_lookup = t.page_lookup := by
  unfold flushSlotRead
  split_ifs with h1
  · refine ⟨?_, ?_, rfl, rfl, rfl⟩
    · intro j
      by_cases hj : j = c <;> simp [fupd, hj]
    · intro v
      by_cases hv : v = t.readlookup c
      · rw [hv]
        simp [fupd, h1]
      · have : ¬ (t.readlookup c = v ∧ v ≠ 0xffffffff) := by
          intro hx
          exact hv hx.1.symm
        simp only [fupd]
        rw [if_neg hv, if_neg this]
  · refine ⟨?_, ?_, rfl, rfl, rfl⟩
    · intro j
      by_cases hj : j = c <;> simp_all
    · intro v
      have : ¬ (t.readlookup c = v ∧ v ≠ 0xffffffff) := by
        intro hx
        rw [not_not] at h1
        rw [← hx.1] at hx
        exact hx.2 h1
      rw [if_neg this]

theorem flushSlotWrite_parts (t : Tlb) (c : Nat) :
    (∀ j, (flushSlotWrite t c).writelookup j = if j = c then 0xffffffff else t.writelookup j) ∧
    (∀ v, (flushSlotWrite t c).writelookup2 v =
      if t.writelookup c = v ∧ v ≠ 0xffffffff then none else t.writelookup2 v) ∧
    (∀ v, (flushSlotWrite t c).page_lookup v =
      if t.writelookup c = v ∧ v ≠ 0xffffffff then none else t.page_lookup v) ∧
    (flushSlotWrite t c).readlookup = t.readlookup ∧
    (flushSlotWrite t c).readlookup2 = t.readlookup2 := by
  unfold flushSlotWrite
  split_ifs with h1
  · refine ⟨?_, ?_, ?_, rfl, rfl⟩
    · intro j
      by_cases hj : j = c <;> simp [fupd, hj]
    · intro v
      by_cases hv : v = t.writelookup c
      · rw [hv]
        simp [fupd, h1]
      · have : ¬ (t.writelookup c = v ∧ v ≠ 0xffffffff) := by
          intro hx
          exact hv hx.1.symm
        simp only [fupd]
        rw [if_neg hv, if_neg this]
    · intro v
      by_cases hv : v = t.writelookup c
      · rw [hv]
        simp [fupd, h1]
      · have : ¬ (t.writelookup c = v ∧ v ≠ 0xffffffff) := by
          intro hx
          exact hv hx.1.symm
        simp only [fupd]
        rw [if_neg hv, if_neg this]
  · have hc : t.writelookup c = 0xffffffff := not_not.mp h1
    refine ⟨?_, ?_, ?_, rfl, rfl⟩
    · intro j
      by_cases hj : j = c
      · rw [hj, if_pos rfl, hc]
      · rw [if_neg hj]
    · intro v
      have hx : ¬ (t.writelookup c = v ∧ v ≠ 0xffffffff) := by
        intro hx
        rw [← hx.1] at hx
        exact hx.2 hc
      rw [if_neg hx]
    · intro v
      have hx : ¬ (t.writelookup c = v ∧ v ≠ 0xffffffff) := by
        intro hx
        rw [← hx.1] at hx
        exact hx.2 hc
      rw [if_neg hx]

theorem flushSlot_readlookup (t : Tlb) (c j : Nat) :
    (flushSlot t c).readlookup j = if j = c then 0xffffffff else t.readlookup j := by
  unfold flushSlot
  rw [(flushSlotWrite_parts (flushSlotRead t c) c).2.2.2.1]
  exact (flushSlotRead_parts t c).1 j

theorem flushSlot_writelookup (t : Tlb) (c j : Nat) :
    (flushSlot t c).writelookup j = if j = c then 0xffffffff else t.writelookup j := by
  unfold flushSlot
  rw [(flushSlotWrite_parts (flushSlotRead t c) c).1 j, (flushSlotRead_parts t c).2.2.1]

theorem flushSlot_readlookup2 (t : Tlb) (c : Nat) (v : Nat) :
    (flushSlot t c).readlookup2 v =
      if t.readlookup c = v ∧ v ≠ 0xffffffff then none else t.readlookup2 v := by
  unfold flushSlot
  rw [(flushSlotWrite_parts (flushSlotRead t c) c).2.2.2.2]
  exact (flushSlotRead_parts t c).2.1 v

theorem flushSlot_writelookup2 (t : Tlb) (c : Nat) (v : Nat) :
    (flushSlot t c).writelookup2 v =
      if t.writelookup c = v ∧ v ≠ 0xffffffff then none else t.writelookup2 v := by
  unfold flushSlot
  rw [(flushSlotWrite_parts (flushSlotRead t c) c).2.1 v, (flushSlotRead_parts t c).2.2.2.1,
    (flushSlotRead_parts t c).2.2.1]

theorem flushSlot_page_lookup (t : Tlb) (c : Nat) (v : Nat) :
    (flushSlot t c).page_lookup v =
      if t.writelookup c = v ∧ v ≠ 0xffffffff then none else t.page_lookup v := by
  unfold flushSlot
  rw [(flushSlotWrite_parts (flushSlotRead t c) c).2.2.1 v, (flushSlotRead_parts t c).2.2.2.2,
    (flushSlotRead_parts t c).2.2.1]

/-- Loop invariant of the flush loops: slots before the cursor are the
sentinel with their reverse entries cleared; slots from the cursor on
either still hold their pre-flush value or already have their reverse
entries cleared. -/
def flushInv (t0 : Tlb) (c : Nat) (t : Tlb) : Prop :=
  (∀ j, j < c → t.readlookup j = 0xffffffff ∧ t.writelookup j = 0xffffffff) ∧
  (∀ j, c ≤ j → j < 256 →
      (t0.readlookup j ≠ 0xffffffff →
        t.readlookup j = t0.readlookup j ∨ t.readlookup2 (t0.readlookup j) = none) ∧
      (t0.writelookup j ≠ 0xffffffff →
        t.writelookup j = t0.writelookup j ∨
          (t.writelookup2 (t0.writelookup j) = none ∧
           t.page_lookup (t0.writelookup j) = none))) ∧
  (∀ j, j < c →
      (t0.readlookup j ≠ 0xffffffff → t.readlookup2 (t0.readlookup j) = none) ∧
      (t0.writelookup j ≠ 0xffffffff →
        t.writelookup2 (t0.writelookup j) = none ∧
        t.page_lookup (t0.writelookup j) = none))

theorem rl2_none_stable (t : Tlb) (c : Nat) (v : Nat) (h : t.readlookup2 v = none) :
    (flushSlot t c).readlookup2 v = none := by
  rw [flushSlot_readlookup2]
  split_ifs <;> [rfl; exact h]

theorem wl2_none_stable (t : Tlb) (c : Nat) (v : Nat) (h : t.writelookup2 v = none) :
    (flushSlot t c).writelookup2 v = none := by
  rw [flushSlot_writelookup2]
  split_ifs <;> [rfl; exact h]

theorem pl_none_stable (t : Tlb) (c : Nat) (v : Nat) (h : t.page_lookup v = none) :
    (flushSlot t c).page_lookup v = none := by
  rw [flushSlot_page_lookup]
  split_ifs <;> [rfl; exact h]

theorem flushInv_step (t0 : Tlb) (c : Nat) (t : Tlb) (hinv : flushInv t0 c t)
    (hc : c < 256) : flushInv t0 (c + 1) (flushSlot t c) := by
  obtain ⟨p1, p2, p3⟩ := hinv
  refine ⟨?_, ?_, ?_⟩
  · intro j hj
    rw [flushSlot_readlookup, flushSlot_writelookup]
    by_cases hjc : j = c
    · rw [if_pos hjc, if_pos hjc]
      exact ⟨rfl, rfl⟩
    · rw [if_neg hjc, if_neg hjc]
      exact p1 j (by omega)
  · intro j hj1 hj2
    have hcj : j ≠ c := by omega
    constructor
    · intro hne
      rcases (p2 j (by omega) hj2).1 hne with h | h
      · left
        rw [flushSlot_readlookup, if_neg hcj]
        exact h
      · right
        exact rl2_none_stable t c _ h
    · intro hne
      rcases (p2 j (by omega) hj2).2 hne with h | h
      · left
        rw [flushSlot_writelookup, if_neg hcj]
        exact h
      · right
        exact ⟨wl2_none_stable t c _ h.1, pl_none_stable t c _ h.2⟩
  · intro j hj
    by_cases hjc : j = c
    · subst hjc
      constructor
      · intro hne
        rcases (p2 j (by omega) hc).1 hne with h | h
        · rw [flushSlot_readlookup2, if_pos ⟨h, hne⟩]
        · exact rl2_none_stable t j _ h
      · intro hne
        rcases (p2 j (by omega) hc).2 hne with h | h
        · rw [flushSlot_writelookup2, flushSlot_page_lookup, if_pos ⟨h, hne⟩,
            if_pos ⟨h, hne⟩]
          exact ⟨rfl, rfl⟩
        · exact ⟨wl2_none_stable t j _ h.1, pl_none_stable t j _ h.2⟩
    · have hjlt : j < c := by omega
      constructor
      · intro hne
        exact rl2_none_stable t c _ ((p3 j hjlt).1 hne)
      · intro hne
        exact ⟨wl2_none_stable t c _ ((p3 j hjlt).2 hne).1,
          pl_none_stable t c _ ((p3 j hjlt).2 hne).2⟩

theorem flushInv_done (t0 : Tlb) (c : Nat) (t : Tlb) (hc : 256 ≤ c)
    (hinv : flushInv t0 c t) : tlbFlushed t0 t :=
  ⟨fun j hj => hinv.1 j (by omega),
   fun j hj => (hinv.2.2 j (by omega)).1,
   fun j hj => (hinv.2.2 j (by omega)).2⟩

theorem flushLoop_flushed_aux : ∀ (n : Nat) (t0 : Tlb) (c : Nat) (t : Tlb), 256 - c ≤ n →
    flushInv t0 c t → tlbFlushed t0 (flushLoop t c) := by
  intro n
  induction n with
  | zero =>
      intro t0 c t hn hinv
      rw [flushLoop, dif_neg (by omega)]
      exact flushInv_done t0 c t (by omega) hinv
  | succ n ih =>
      intro t0 c t hn hinv
      by_cases hc : c < 256
      · rw [flushLoop, dif_pos hc]
        exact ih t0 (c + 1) (flushSlot t c) (by omega) (flushInv_step t0 c t hinv hc)
      · rw [flushLoop, dif_neg hc]
        exact flushInv_done t0 c t (by omega) hinv

theorem flush_flushed (t : Tlb) : tlbFlushed t (flushmmucache_cr3 t) := by
  unfold flushmmucache_cr3
  refine flushLoop_flushed_aux 256 t 0 t (by omega) ?_
  exact ⟨fun j hj => absurd hj (by omega),
    fun j h0 hj => ⟨fun _ => Or.inl rfl, fun _ => Or.inl rfl⟩,
    fun j hj => absurd hj (by omega)⟩

theorem flush_preserves_flushed (t0 t : Tlb) (h : tlbFlushed t0 t) :
    tlbFlushed t0 (flushmmucache_cr3 t) := by
  unfold flushmmucache_cr3
  refine flushLoop_flushed_aux 256 t0 0 t (by omega) ?_
  exact ⟨fun j hj => absurd hj (by omega),
    fun j h0 hj => ⟨fun hne => Or.inr (h.2.1 j hj hne), fun hne => Or.inr (h.2.2 j hj hne)⟩,
    fun j hj => absurd hj (by omega)⟩

theorem recalc_tlb (s : RegState) (base size : Nat) (h : size ≠ 0) :
    (mem_mapping_recalc s base size).tlb = flushmmucache_cr3 s.tlb := by
  unfold mem_mapping_recalc
  rw [if_neg h]

theorem recalc_tlb_zero (s : RegState) (base : Nat) :
    (mem_mapping_recalc s base 0).tlb = s.tlb := by
  unfold mem_mapping_recalc
  rw [if_pos rfl]

theorem recalc_mappings (s : RegState) (base size : Nat) :
    (mem_mapping_recalc s base size).mappings = s.mappings := by
  unfold mem_mapping_recalc
  split_ifs <;> rfl

theorem recalc_mem_state (s : RegState) (base size : Nat) :
    (mem_mapping_recalc s base size).mem_state = s.mem_state := by
  unfold mem_mapping_recalc
  split_ifs <;> rfl

theorem recalc_in_smm (s : RegState) (base size : Nat) :
    (mem_mapping_recalc s base size).in_smm = s.in_smm := by
  unfold mem_mapping_recalc
  split_ifs <;> rfl

theorem add_flushes (s : RegState) (m : MemMap) (hsz : m.size ≠ 0) :
    tlbFlushed s.tlb (mem_mapping_add s m).tlb := by
  unfold mem_mapping_add
  rw [recalc_tlb]
  · exact flush_flushed s.tlb
  · exact hsz

theorem disable_flushes (s : RegState) (i : Nat) (m : MemMap)
    (hi : s.mappings[i]? = some m) (hsz : m.size ≠ 0) :
    tlbFlushed s.tlb (mem_mapping_disable s i).tlb := by
  unfold mem_mapping_disable
  rw [hi]
  rw [recalc_tlb]
  · exact flush_flushed s.tlb
  · exact hsz

theorem enable_flushes (s : RegState) (i : Nat) (m : MemMap)
    (hi : s.mappings[i]? = some m) (hsz : m.size ≠ 0) :
    tlbFlushed s.tlb (mem_mapping_enable s i).tlb := by
  unfold mem_mapping_enable
  rw [hi]
  rw [recalc_tlb]
  · exact flush_flushed s.tlb
  · exact hsz

theorem del_flushes (s : RegState) (i : Nat) (m : MemMap)
    (hi : s.mappings[i]? = some m) (hsz : m.size ≠ 0) :
    tlbFlushed s.tlb (mem_mapping_del s i).tlb :=
  disable_flushes s i m hi hsz

theorem set_handler_flushes (s : RegState) (i : Nat) (m : MemMap)
    (rb rw2 rl wb ww wl : Bool)
    (hi : s.mappings[i]? = some m) (hsz : m.size ≠ 0) :
    tlbFlushed s.tlb (mem_mapping_set_handler s i rb rw2 rl wb ww wl).tlb := by
  unfold mem_mapping_set_handler
  rw [hi]
  rw [recalc_tlb]
  · exact flush_flushed s.tlb
  · exact hsz

theorem set_addr_flushes (s : RegState) (i : Nat) (m : MemMap) (nb nsz : Nat)
    (hi : s.mappings[i]? = some m) (hsz : m.size ≠ 0 ∨ nsz ≠ 0) :
    tlbFlushed s.tlb (mem_mapping_set_addr s i nb nsz).tlb := by
  have hlen : i < s.mappings.length := (List.getElem?_eq_some.mp hi).1
  unfold mem_mapping_set_addr
  rw [hi]
  dsimp only
  have hset : ((mem_mapping_recalc
      { s with mappings := s.mappings.set i { m with enable := false } }
      m.base m.size).mappings)[i]? = some { m with enable := false } := by
    rw [recalc_mappings]
    exact List.getElem?_set_self (by simpa using hlen)
  rw [hset]
  by_cases h1 : m.size = 0
  · have h2 : nsz ≠ 0 := by
      rcases hsz with h | h
      · exact absurd h1 h
      · exact h
    rw [recalc_tlb _ _ _ h2]
    have e1 : (mem_mapping_recalc
        { s with mappings := s.mappings.set i { m with enable := false } }
        m.base m.size) =
        { s with mappings := s.mappings.set i { m with enable := false } } := by
      unfold mem_mapping_recalc
      rw [if_pos h1]
    rw [e1]
    exact flush_flushed s.tlb
  · have e1 : (mem_mapping_recalc
        { s with mappings := s.mappings.set i { m with enable := false } }
        m.base m.size).tlb = flushmmucache_cr3 s.tlb := recalc_tlb _ _ _ h1
    by_cases h2 : nsz = 0
    · subst h2
      rw [recalc_tlb_zero, e1]
      exact flush_flushed s.tlb
    · rw [recalc_tlb _ _ _ h2, e1]
      exact flush_preserves_flushed s.tlb (flushmmucache_cr3 s.tlb) (flush_flushed s.tlb)

theorem addreadlookup_main (t : Tlb) (perm virt phys : Nat)
    (h1 : virt ≠ 0xffffffff) (h2 : t.readlookup2 (virt >>> 12) = none) :
    ((addreadlookup t perm virt phys).readlookup =
        fupd t.readlookup t.readlnext (virt >>> 12)) ∧
    ((addreadlookup t perm virt phys).readlnext = (t.readlnext + 1) &&& (cachesize - 1)) ∧
    (((addreadlookup t perm virt phys).readlookup2 (virt >>> 12)).isSome = true) ∧
    (∀ v, v ≠ virt >>> 12 → v ≠ t.readlookup t.readlnext →
      (addreadlookup t perm virt phys).readlookup2 v = t.readlookup2 v) := by
  unfold addreadlookup
  rw [if_neg h1, if_neg (by simp [h2])]
  dsimp only
  refine ⟨?_, ?_, ?_, ?_⟩
  · split_ifs <;> rfl
  · split_ifs <;> rfl
  · split_ifs <;> simp [fupd]
  · intro v hv1 hv2
    split_ifs with hw
    · simp only [fupd]
      rw [if_neg hv1, if_neg hv2]
    · simp only [fupd]
      rw [if_neg hv1]

theorem addreadlookup_preserves_inv (t : Tlb) (perm virt phys : Nat)
    (hv : virt < 4294967296) (hinv : readInv t) :
    readInv (addreadlookup t perm virt phys) := by
  by_cases h1 : virt = 0xffffffff
  · unfold addreadlookup
    rw [if_pos h1]
    exact hinv
  · by_cases h2 : (t.readlookup2 (virt >>> 12)).isSome = true
    · unfold addreadlookup
      rw [if_neg h1, if_pos h2]
      exact hinv
    · have h2n : t.readlookup2 (virt >>> 12) = none := by
        cases hx : t.readlookup2 (virt >>> 12)
        · rfl
        · rw [hx] at h2
          exact absurd rfl h2
      obtain ⟨ha, hb, hc, hd⟩ := addreadlookup_main t perm virt phys h1 h2n
      obtain ⟨i1, i2, i3⟩ := hinv
      have hvp_ne : virt >>> 12 ≠ 0xffffffff := by
        have hlt : virt >>> 12 < 0x100000 := by
          rw [Nat.shiftRight_eq_div_pow]
          omega
        omega
      refine ⟨?_, ?_, ?_⟩
      · rw [hb]
        have hle : (t.readlnext + 1) &&& (cachesize - 1) ≤ cachesize - 1 := Nat.and_le_right
        simp only [cachesize] at hle ⊢
        omega
      · intro c hc256 hval
        rw [ha] at hval ⊢
        by_cases hck : c = t.readlnext
        · rw [hck, fupd_same]
          exact hc
        · rw [fupd_other _ _ _ _ hck] at hval ⊢
          have hu_ne_vp : t.readlookup c ≠ virt >>> 12 := by
            intro hx
            have hs := i2 c hc256 hval
            rw [hx, h2n] at hs
            exact absurd hs (by simp)
          have hu_ne_w : t.readlookup c ≠ t.readlookup t.readlnext := by
            by_cases hwv : t.readlookup t.readlnext = 0xffffffff
            · rw [hwv]
              exact hval
            · exact i3 c hc256 t.readlnext i1 hck hval
          rw [hd _ hu_ne_vp hu_ne_w]
          exact i2 c hc256 hval
      · intro c hc256 cq hcq256 hne hval
        rw [ha] at hval ⊢
        by_cases hck : c = t.readlnext <;> by_cases hcqk : cq = t.readlnext
        · rw [hck, hcqk] at hne
          exact absurd rfl hne
        · rw [hck, fupd_same] at hval ⊢
          rw [fupd_other _ _ _ _ hcqk]
          intro hx
          by_cases hq : t.readlookup cq = 0xffffffff
          · rw [← hx] at hq
            exact hvp_ne hq
          · have hs := i2 cq hcq256 hq
            rw [← hx, h2n] at hs
            exact absurd hs (by simp)
        · rw [fupd_other _ _ _ _ hck] at hval ⊢
          rw [hcqk, fupd_same]
          intro hx
          have hs := i2 c hc256 hval
          rw [hx, h2n] at hs
          exact absurd hs (by simp)
        · rw [fupd_other _ _ _ _ hck] at hval ⊢
          rw [fupd_other _ _ _ _ hcqk]
          exact i3 c hc256 cq hcq256 hne hval

theorem addreadlookup_cached_noop (t : Tlb) (perm virt phys : Nat)
    (h : (t.readlookup2 (virt >>> 12)).isSome = true) :
    addreadlookup t perm virt phys = t := by
  unfold addreadlookup
  by_cases h1 : virt = 0xffffffff
  · rw [if_pos h1]
  · rw [if_neg h1, if_pos h]

theorem applyMapChunk1_read (ms : Nat → Nat) (smm : Bool) (idx : Nat) (m : MemMap)
    (tb : Tables) (c i : Nat) :
    (applyMapChunk1 ms smm idx m tb c).read_mapping i =
      if i = c >>> Mmu.MEM_GRANULARITY_BITS ∧
         ((m.read_b || m.read_w || m.read_l) &&
           mem_mapping_read_allowed m.flags (ms (c >>> Mmu.MEM_GRANULARITY_BITS)) false smm) = true
      then some idx else tb.read_mapping i := by
  unfold applyMapChunk1
  split_ifs <;> (try simp_all [fupd]) <;> (try split_ifs) <;> simp_all [fupd]

theorem applyMapChunk1_write (ms : Nat → Nat) (smm : Bool) (idx : Nat) (m : MemMap)
    (tb : Tables) (c i : Nat) :
    (applyMapChunk1 ms smm idx m tb c).write_mapping i =
      if i = c >>> Mmu.MEM_GRANULARITY_BITS ∧
         ((m.write_b || m.write_w || m.write_l) &&
           mem_mapping_write_allowed m.flags (ms (c >>> Mmu.MEM_GRANULARITY_BITS)) smm) = true
      then some idx else tb.write_mapping i := by
  unfold applyMapChunk1
  split_ifs <;> (try simp_all [fupd]) <;> (try split_ifs) <;> simp_all [fupd]

theorem clearChunks_read_aux : ∀ (n : Nat) (tb : Tables) (c stop : Nat), stop - c ≤ n →
    c % 4096 = 0 → stop % 4096 = 0 → ∀ i,
    (clearChunks tb c stop).read_mapping i =
      if c ≤ 4096 * i ∧ 4096 * i < stop then none else tb.read_mapping i := by
  intro n
  induction n with
  | zero =>
      intro tb c stop hn hc hs i
      rw [clearChunks, dif_neg (by omega), if_neg (by omega)]
  | succ n ih =>
      intro tb c stop hn hc hs i
      by_cases h : c < stop
      · rw [clearChunks, dif_pos h]
        rw [ih _ _ _ (by simp only [MEM_GRANULARITY_SIZE]; omega)
          (by simp only [MEM_GRANULARITY_SIZE]; omega) hs i]
        have hshift : c >>> Mmu.MEM_GRANULARITY_BITS = c / 4096 := by
          simp [Mmu.MEM_GRANULARITY_BITS, Nat.shiftRight_eq_div_pow]
        simp only [MEM_GRANULARITY_SIZE, hshift, fupd]
        split_ifs <;> first | rfl | omega
      · rw [clearChunks, dif_neg h, if_neg (by omega)]

theorem clearChunks_write_aux : ∀ (n : Nat) (tb : Tables) (c stop : Nat), stop - c ≤ n →
    c % 4096 = 0 → stop % 4096 = 0 → ∀ i,
    (clearChunks tb c stop).write_mapping i =
      if c ≤ 4096 * i ∧ 4096 * i < stop then none else tb.write_mapping i := by
  intro n
  induction n with
  | zero =>
      intro tb c stop hn hc hs i
      rw [clearChunks, dif_neg (by omega), if_neg (by omega)]
  | succ n ih =>
      intro tb c stop hn hc hs i
      by_cases h : c < stop
      · rw [clearChunks, dif_pos h]
        rw [ih _ _ _ (by simp only [MEM_GRANULARITY_SIZE]; omega)
          (by simp only [MEM_GRANULARITY_SIZE]; omega) hs i]
        have hshift : c >>> Mmu.MEM_GRANULARITY_BITS = c / 4096 := by
          simp [Mmu.MEM_GRANULARITY_BITS, Nat.shiftRight_eq_div_pow]
        simp only [MEM_GRANULARITY_SIZE, hshift, fupd]
        split_ifs <;> first | rfl | omega
      · rw [clearChunks, dif_neg h, if_neg (by omega)]

theorem applyMapChunks_read_aux : ∀ (n : Nat) (ms : Nat → Nat) (smm : Bool) (idx : Nat)
    (m : MemMap) (tb : Tables) (c stop : Nat), stop - c ≤ n →
    c % 4096 = 0 → stop % 4096 = 0 → ∀ i,
    (applyMapChunks ms smm idx m tb c stop).read_mapping i =
      if c ≤ 4096 * i ∧ 4096 * i < stop ∧
         ((m.read_b || m.read_w || m.read_l) &&
           mem_mapping_read_allowed m.flags (ms i) false smm) = true
      then some idx else tb.read_mapping i := by
  intro n
  induction n with
  | zero =>
      intro ms smm idx m tb c stop hn hc hs i
      rw [applyMapChunks, dif_neg (by omega), if_neg (by omega)]
  | succ n ih =>
      intro ms smm idx m tb c stop hn hc hs i
      by_cases h : c < stop
      · rw [applyMapChunks, dif_pos h]
        rw [ih ms smm idx m _ _ _ (by simp only [MEM_GRANULARITY_SIZE]; omega)
          (by simp only [MEM_GRANULARITY_SIZE]; omega) hs i]
        rw [applyMapChunk1_read]
        have hshift : c >>> Mmu.MEM_GRANULARITY_BITS = c / 4096 := by
          simp [Mmu.MEM_GRANULARITY_BITS, Nat.shiftRight_eq_div_pow]
        rw [hshift]
        simp only [MEM_GRANULARITY_SIZE]
        by_cases hik : i = c / 4096
        · have e1 : 4096 * i = c := by omega
          by_cases hp : ((m.read_b || m.read_w || m.read_l) &&
              mem_mapping_read_allowed m.flags (ms (c / 4096)) false smm) = true
          · rw [if_pos (show i = c / 4096 ∧ ((m.read_b || m.read_w || m.read_l) &&
                mem_mapping_read_allowed m.flags (ms (c / 4096)) false smm) = true
                from ⟨hik, hp⟩)]
            rw [ite_self]
            rw [if_pos (show c ≤ 4096 * i ∧ 4096 * i < stop ∧
                ((m.read_b || m.read_w || m.read_l) &&
                  mem_mapping_read_allowed m.flags (ms i) false smm) = true
                from ⟨by omega, by omega, by rw [hik]; exact hp⟩)]
          · rw [if_neg (show ¬ (i = c / 4096 ∧ ((m.read_b || m.read_w || m.read_l) &&
                mem_mapping_read_allowed m.flags (ms (c / 4096)) false smm) = true)
                from fun hx => hp hx.2)]
            rw [if_neg (show ¬ (c + 4096 ≤ 4096 * i ∧ 4096 * i < stop ∧
                ((m.read_b || m.read_w || m.read_l) &&
                  mem_mapping_read_allowed m.flags (ms i) false smm) = true)
                from fun hx => absurd hx.1 (by omega))]
            rw [if_neg (show ¬ (c ≤ 4096 * i ∧ 4096 * i < stop ∧
                ((m.read_b || m.read_w || m.read_l) &&
                  mem_mapping_read_allowed m.flags (ms i) false smm) = true)
                from fun hx => hp (by rw [← hik]; exact hx.2.2))]
        · rw [if_neg (show ¬ (i = c / 4096 ∧ ((m.read_b || m.read_w || m.read_l) &&
              mem_mapping_read_allowed m.flags (ms (c / 4096)) false smm) = true)
              from fun hx => hik hx.1)]
          have harith : (c ≤ 4096 * i) = (c + 4096 ≤ 4096 * i) := by
            apply propext
            constructor
            · intro hy
              omega
            · intro hy
              omega
          simp only [harith]
      · rw [applyMapChunks, dif_neg h, if_neg (by omega)]

theorem applyMapChunks_write_aux : ∀ (n : Nat) (ms : Nat → Nat) (smm : Bool) (idx : Nat)
    (m : MemMap) (tb : Tables) (c stop : Nat), stop - c ≤ n →
    c % 4096 = 0 → stop % 4096 = 0 → ∀ i,
    (applyMapChunks ms smm idx m tb c stop).write_mapping i =
      if c ≤ 4096 * i ∧ 4096 * i < stop ∧
         ((m.write_b || m.write_w || m.write_l) &&
           mem_mapping_write_allowed m.flags (ms i) smm) = true
      then some idx else tb.write_mapping i := by
  intro n
  induction n with
  | zero =>
      intro ms smm idx m tb c stop hn hc hs i
      rw [applyMapChunks, dif_neg (by omega), if_neg (by omega)]
  | succ n ih =>
      intro ms smm idx m tb c stop hn hc hs i
      by_cases h : c < stop
      · rw [applyMapChunks, dif_pos h]
        rw [ih ms smm idx m _ _ _ (by simp only [MEM_GRANULARITY_SIZE]; omega)
          (by simp only [MEM_GRANULARITY_SIZE]; omega) hs i]
        rw [applyMapChunk1_write]
        have hshift : c >>> Mmu.MEM_GRANULARITY_BITS = c / 4096 := by
          simp [Mmu.MEM_GRANULARITY_BITS, Nat.shiftRight_eq_div_pow]
        rw [hshift]
        simp only [MEM_GRANULARITY_SIZE]
        by_cases hik : i = c / 4096
        · have e1 : 4096 * i = c := by omega
          by_cases hp : ((m.write_b || m.write_w || m.write_l) &&
              mem_mapping_write_allowed m.flags (ms (c / 4096)) smm) = true
          · rw [if_pos (show i = c / 4096 ∧ ((m.write_b || m.write_w || m.write_l) &&
                mem_mapping_write_allowed m.flags (ms (c / 4096)) smm) = true
                from ⟨hik, hp⟩)]
            rw [ite_self]
            rw [if_pos (show c ≤ 4096 * i ∧ 4096 * i < stop ∧
                ((m.write_b || m.write_w || m.write_l) &&
                  mem_mapping_write_allowed m.flags (ms i) smm) = true
                from ⟨by omega, by omega, by rw [hik]; exact hp⟩)]
          · rw [if_neg (show ¬ (i = c / 4096 ∧ ((m.write_b || m.write_w || m.write_l) &&
                mem_mapping_write_allowed m.flags (ms (c / 4096)) smm) = true)
                from fun hx => hp hx.2)]
            rw [if_neg (show ¬ (c + 4096 ≤ 4096 * i ∧ 4096 * i < stop ∧
                ((m.write_b || m.write_w || m.write_l) &&
                  mem_mapping_write_allowed m.flags (ms i) smm) = true)
                from fun hx => absurd hx.1 (by omega))]
            rw [if_neg (show ¬ (c ≤ 4096 * i ∧ 4096 * i < stop ∧
                ((m.write_b || m.write_w || m.write_l) &&
                  mem_mapping_write_allowed m.flags (ms i) smm) = true)
                from fun hx => hp (by rw [← hik]; exact hx.2.2))]
        · rw [if_neg (show ¬ (i = c / 4096 ∧ ((m.write_b || m.write_w || m.write_l) &&
              mem_mapping_write_allowed m.flags (ms (c / 4096)) smm) = true)
              from fun hx => hik hx.1)]
          have harith : (c ≤ 4096 * i) = (c + 4096 ≤ 4096 * i) := by
            apply propext
            constructor
            · intro hy
              omega
            · intro hy
              omega
          simp only [harith]
      · rw [applyMapChunks, dif_neg h, if_neg (by omega)]

/-- Chunk-table characterisation of the per-mapping loop, read table:
fuel instantiated at the loop length. -/
theorem applyMapChunks_read (ms : Nat → Nat) (smm : Bool) (idx : Nat) (m : MemMap)
    (tb : Tables) (c stop : Nat) (hc : c % 4096 = 0) (hs : stop % 4096 = 0) (i : Nat) :
    (applyMapChunks ms smm idx m tb c stop).read_mapping i =
      if c ≤ 4096 * i ∧ 4096 * i < stop ∧
         ((m.read_b || m.read_w || m.read_l) &&
           mem_mapping_read_allowed m.flags (ms i) false smm) = true
      then some idx else tb.read_mapping i :=
  applyMapChunks_read_aux (stop - c) ms smm idx m tb c stop (Nat.le_refl _) hc hs i

/-- Chunk-table characterisation of the per-mapping loop, write table:
fuel instantiated at the loop length. -/
theorem applyMapChunks_write (ms : Nat → Nat) (smm : Bool) (idx : Nat) (m : MemMap)
    (tb : Tables) (c stop : Nat) (hc : c % 4096 = 0) (hs : stop % 4096 = 0) (i : Nat) :
    (applyMapChunks ms smm idx m tb c stop).write_mapping i =
      if c ≤ 4096 * i ∧ 4096 * i < stop ∧
         ((m.write_b || m.write_w || m.write_l) &&
           mem_mapping_write_allowed m.flags (ms i) smm) = true
      then some idx else tb.write_mapping i :=
  applyMapChunks_write_aux (stop - c) ms smm idx m tb c stop (Nat.le_refl _) hc hs i

/-- The derived tables of a nonzero-size recalculation: clear the window,
then walk the registry. -/
theorem recalc_tables (s : RegState) (base size : Nat) (h : size ≠ 0) :
    (mem_mapping_recalc s base size).tables =
      recalcWalk s.mem_state s.in_smm (clearChunks s.tables base (base + size))
        s.mappings 0 base size := by
  unfold mem_mapping_recalc
  rw [if_neg h]

end Reg

/-- Claim C1, counterexample to the stated bit0 polarity: in a state
whose page directory holds the all-zero entry, the normal walk at linear
address 0 faults with the present bit of the failing entry clear, yet the
stored cause has bit0 clear as well, while the claim demands bit0 set
exactly when the present bit was clear. -/
theorem c1_bit0_counterexample :
    (Mmu.mmutranslatereal_normal { } 0 false).1 = Mmu.SENT ∧
    Mmu.nrm_failent { } 0 &&& 1 = 0 ∧
    (Mmu.mmutranslatereal_normal { } 0 false).2.abrt_error &&& 1 = 0 :=
  ⟨rfl, rfl, rfl⟩

/-- Claim C1 (amended): on every faulting invocation of the page-table
walker, normal or PAE mode, CR2 receives the faulting linear address and
the stored 3-bit cause has bit0 equal to the present bit of the failing
entry (so bit0 is SET exactly when the failing entry was present and the
fault is a protection violation), bit1 set iff the access was a write,
and bit2 set iff the access originated at user privilege (CPL 3). -/
theorem c1_fault_cause_amended :
    (∀ (s : Mmu.MState) (addr : Nat) (rw : Bool), s.abrt = false →
      (Mmu.mmutranslatereal_normal s addr rw).1 = Mmu.SENT →
      ((Mmu.mmutranslatereal_normal s addr rw).2.cr2 = addr ∧
       (Mmu.mmutranslatereal_normal s addr rw).2.abrt = true ∧
       (Mmu.mmutranslatereal_normal s addr rw).2.abrt_error &&& 1 = Mmu.nrm_failent s addr &&& 1 ∧
       (Mmu.mmutranslatereal_normal s addr rw).2.abrt_error &&& 2 = (if rw then 2 else 0) ∧
       (Mmu.mmutranslatereal_normal s addr rw).2.abrt_error &&& 4 = (if s.cpl = 3 then 4 else 0))) ∧
    (∀ (s : Mmu.MState) (addr : Nat) (rw : Bool), s.abrt = false →
      (Mmu.mmutranslatereal_pae s addr rw).1 = Mmu.SENT →
      ((Mmu.mmutranslatereal_pae s addr rw).2.cr2 = addr ∧
       (Mmu.mmutranslatereal_pae s addr rw).2.abrt = true ∧
       (Mmu.mmutranslatereal_pae s addr rw).2.abrt_error &&& 1 = Mmu.pae_failent s addr &&& 1 ∧
       (Mmu.mmutranslatereal_pae s addr rw).2.abrt_error &&& 2 = (if rw then 2 else 0) ∧
       (Mmu.mmutranslatereal_pae s addr rw).2.abrt_error &&& 4 = (if s.cpl = 3 then 4 else 0))) := by
  constructor
  · intro s addr rw h hf
    rw [Mmu.nrm_fault_spec s addr rw h hf]
    exact ⟨rfl, rfl, (Mmu.pf_error_bits (Mmu.nrm_failent s addr) s.cpl rw).1,
      (Mmu.pf_error_bits (Mmu.nrm_failent s addr) s.cpl rw).2.1,
      (Mmu.pf_error_bits (Mmu.nrm_failent s addr) s.cpl rw).2.2⟩
  · intro s addr rw h hf
    rw [Mmu.pae_fault_spec s addr rw h hf]
    exact ⟨rfl, rfl, (Mmu.pf_error_bits (Mmu.pae_failent s addr) s.cpl rw).1,
      (Mmu.pf_error_bits (Mmu.pae_failent s addr) s.cpl rw).2.1,
      (Mmu.pf_error_bits (Mmu.pae_failent s addr) s.cpl rw).2.2⟩

/-- Witness for claim C1: the amended theorem applied to the concrete
faulting input of the counterexample state. -/
theorem c1_fault_cause_witness :
    ({ } : Mmu.MState).abrt = false ∧
    (Mmu.mmutranslatereal_normal { } 0 false).1 = Mmu.SENT ∧
    ((Mmu.mmutranslatereal_normal ({ } : Mmu.MState) 0 false).2.cr2 = 0 ∧
     (Mmu.mmutranslatereal_normal ({ } : Mmu.MState) 0 false).2.abrt = true ∧
     (Mmu.mmutranslatereal_normal ({ } : Mmu.MState) 0 false).2.abrt_error &&& 1 =
       Mmu.nrm_failent { } 0 &&& 1 ∧
     (Mmu.mmutranslatereal_normal ({ } : Mmu.MState) 0 false).2.abrt_error &&& 2 =
       (if false then 2 else 0) ∧
     (Mmu.mmutranslatereal_normal ({ } : Mmu.MState) 0 false).2.abrt_error &&& 4 =
       (if ({ } : Mmu.MState).cpl = 3 then 4 else 0)) :=
  ⟨rfl, rfl, c1_fault_cause_amended.1 { } 0 false rfl rfl⟩

/-- Claim C2: on every faulting path of the page-table walker (normal
and PAE), no page-table entry is modified; the accessed and dirty stores
happen only on the successful exits. -/
theorem c2_no_writeback_on_fault :
    (∀ (s : Mmu.MState) (addr : Nat) (rw : Bool),
      (Mmu.mmutranslatereal_normal s addr rw).1 = Mmu.SENT →
      (Mmu.mmutranslatereal_normal s addr rw).2.tab = s.tab ∧
      (Mmu.mmutranslatereal_normal s addr rw).2.tab64 = s.tab64) ∧
    (∀ (s : Mmu.MState) (addr : Nat) (rw : Bool),
      (Mmu.mmutranslatereal_pae s addr rw).1 = Mmu.SENT →
      (Mmu.mmutranslatereal_pae s addr rw).2.tab = s.tab ∧
      (Mmu.mmutranslatereal_pae s addr rw).2.tab64 = s.tab64) :=
  ⟨Mmu.nrm_fault_tab, Mmu.pae_fault_tab⟩

/-- Witness for claim C2: the theorem applied to a concrete faulting
walk. -/
theorem c2_no_writeback_on_fault_witness :
    (Mmu.mmutranslatereal_normal { } 0 false).1 = Mmu.SENT ∧
    ((Mmu.mmutranslatereal_normal ({ } : Mmu.MState) 0 false).2.tab = ({ } : Mmu.MState).tab ∧
     (Mmu.mmutranslatereal_normal ({ } : Mmu.MState) 0 false).2.tab64 = ({ } : Mmu.MState).tab64) :=
  ⟨rfl, c2_no_writeback_on_fault.1 { } 0 false rfl⟩

/-- Claim C3, counterexample: with cpl_override set, CPL 3, write-protect
clear, and a present user page whose write bit is clear, the faulting
walk succeeds (the write-permission test exempts cpl_override) while the
noabrt walk returns the all-ones sentinel, so the two walks are not
equivalent over every identical privilege state. -/
theorem c3_noabrt_counterexample :
    Mmu.mmutranslate_noabrt_normal { tab := fun _ => 5, cpl := 3, cpl_override := true } 0 true =
      Mmu.SENT ∧
    (Mmu.mmutranslatereal_normal { tab := fun _ => 5, cpl := 3, cpl_override := true } 0 true).1
      = 0 ∧
    (Mmu.mmutranslatereal_normal { tab := fun _ => 5, cpl := 3, cpl_override := true } 0 true).2.abrt
      = false :=
  ⟨rfl, rfl, rfl⟩

/-- Claim C3 (amended): when cpl_override is clear the non-faulting walk
computes exactly the value of the faulting walk in both modes (sentinel
exactly on the inputs where the faulting walk faults, the identical
physical address where it succeeds); and the faulting walk returns the
sentinel exactly when it raises the abort flag.  The noabrt walk is a
pure function of the state in this embedding, mirroring the source
functions, which write no fault register and no page-table entry. -/
theorem c3_noabrt_equiv_amended :
    (∀ (s : Mmu.MState) (addr : Nat) (rw : Bool), s.cpl_override = false →
      Mmu.mmutranslate_noabrt_normal s addr rw = (Mmu.mmutranslatereal_normal s addr rw).1) ∧
    (∀ (s : Mmu.MState) (addr : Nat) (rw : Bool), s.cpl_override = false →
      Mmu.mmutranslate_noabrt_pae s addr rw = (Mmu.mmutranslatereal_pae s addr rw).1) ∧
    (∀ (s : Mmu.MState) (addr : Nat) (rw : Bool), s.abrt = false →
      ((Mmu.mmutranslatereal_normal s addr rw).1 = Mmu.SENT ↔
        (Mmu.mmutranslatereal_normal s addr rw).2.abrt = true)) ∧
    (∀ (s : Mmu.MState) (addr : Nat) (rw : Bool), s.abrt = false →
      ((Mmu.mmutranslatereal_pae s addr rw).1 = Mmu.SENT ↔
        (Mmu.mmutranslatereal_pae s addr rw).2.abrt = true)) :=
  ⟨Mmu.nrm_noabrt_eq, Mmu.pae_noabrt_eq, Mmu.nrm_fault_iff_abrt, Mmu.pae_fault_iff_abrt⟩

/-- Witness for claim C3: the amended equivalence applied at a concrete
state with cpl_override clear. -/
theorem c3_noabrt_equiv_witness :
    ({ } : Mmu.MState).cpl_override = false ∧
    Mmu.mmutranslate_noabrt_normal { } 0 false = (Mmu.mmutranslatereal_normal { } 0 false).1 :=
  ⟨rfl, c3_noabrt_equiv_amended.1 { } 0 false rfl⟩

/-- Claim C5: a byte read through readmembl whose translation faults, or
whose translated physical chunk has no read mapping or no byte read
handler (with paging on or off), returns the open-bus value 0xff, calls
no handler, and leaves the page tables unmodified (the final state is
exactly the state left by the translation step plus the diagnostic
logical-address store); the corresponding writemembl under the same
conditions (its page_lookup fast path missing, as it must on a
translated path) performs no write at all, and in the unmapped cases
raises no fault. -/
theorem c5_openbus_sentinel :
    (∀ (s : Mmu.MState) (addr : Nat), s.cr0 >>> 31 ≠ 0 →
      (Mmu.mmutranslatereal (Mmu.set_mla s addr) addr false).1 = Mmu.SENT →
      Mmu.readmembl s addr = (0xff, (Mmu.mmutranslatereal (Mmu.set_mla s addr) addr false).2) ∧
      (Mmu.mmutranslatereal (Mmu.set_mla s addr) addr false).2.tab = s.tab ∧
      (Mmu.mmutranslatereal (Mmu.set_mla s addr) addr false).2.tab64 = s.tab64) ∧
    (∀ (s : Mmu.MState) (addr : Nat), s.cr0 >>> 31 ≠ 0 →
      (Mmu.mmutranslatereal (Mmu.set_mla s addr) addr false).1 ≠ Mmu.SENT →
      (Mmu.mmutranslatereal (Mmu.set_mla s addr) addr false).1 ≤ 0xffffffff →
      ((Mmu.mmutranslatereal (Mmu.set_mla s addr) addr false).2.read_mapping
         (((Mmu.mmutranslatereal (Mmu.set_mla s addr) addr false).1 &&&
           (Mmu.mmutranslatereal (Mmu.set_mla s addr) addr false).2.rammask) >>>
          Mmu.MEM_GRANULARITY_BITS) = none ∨
       ∃ m, (Mmu.mmutranslatereal (Mmu.set_mla s addr) addr false).2.read_mapping
         (((Mmu.mmutranslatereal (Mmu.set_mla s addr) addr false).1 &&&
           (Mmu.mmutranslatereal (Mmu.set_mla s addr) addr false).2.rammask) >>>
          Mmu.MEM_GRANULARITY_BITS) = some m ∧ m.read_b = none) →
      Mmu.readmembl s addr = (0xff, (Mmu.mmutranslatereal (Mmu.set_mla s addr) addr false).2) ∧
      (s.abrt = false → (Mmu.mmutranslatereal (Mmu.set_mla s addr) addr false).2.abrt = false)) ∧
    (∀ (s : Mmu.MState) (addr : Nat), s.cr0 >>> 31 = 0 →
      (s.read_mapping ((addr &&& s.rammask) >>> Mmu.MEM_GRANULARITY_BITS) = none ∨
       ∃ m, s.read_mapping ((addr &&& s.rammask) >>> Mmu.MEM_GRANULARITY_BITS) = some m ∧
         m.read_b = none) →
      Mmu.readmembl s addr = (0xff, Mmu.set_mla s addr)) ∧
    (∀ (s : Mmu.MState) (addr val : Nat), s.page_lookup (addr >>> 12) = none →
      s.cr0 >>> 31 ≠ 0 →
      (Mmu.mmutranslatereal (Mmu.set_mla s addr) addr true).1 = Mmu.SENT →
      Mmu.writemembl s addr val =
        ((Mmu.mmutranslatereal (Mmu.set_mla s addr) addr true).2, Mmu.WriteEff.noWrite) ∧
      (Mmu.mmutranslatereal (Mmu.set_mla s addr) addr true).2.tab = s.tab ∧
      (Mmu.mmutranslatereal (Mmu.set_mla s addr) addr true).2.tab64 = s.tab64) ∧
    (∀ (s : Mmu.MState) (addr val : Nat), s.page_lookup (addr >>> 12) = none →
      s.cr0 >>> 31 ≠ 0 →
      (Mmu.mmutranslatereal (Mmu.set_mla s addr) addr true).1 ≠ Mmu.SENT →
      (Mmu.mmutranslatereal (Mmu.set_mla s addr) addr true).1 ≤ 0xffffffff →
      ((Mmu.mmutranslatereal (Mmu.set_mla s addr) addr true).2.write_mapping
         (((Mmu.mmutranslatereal (Mmu.set_mla s addr) addr true).1 &&&
           (Mmu.mmutranslatereal (Mmu.set_mla s addr) addr true).2.rammask) >>>
          Mmu.MEM_GRANULARITY_BITS) = none ∨
       ∃ m, (Mmu.mmutranslatereal (Mmu.set_mla s addr) addr true).2.write_mapping
         (((Mmu.mmutranslatereal (Mmu.set_mla s addr) addr true).1 &&&
           (Mmu.mmutranslatereal (Mmu.set_mla s addr) addr true).2.rammask) >>>
          Mmu.MEM_GRANULARITY_BITS) = some m ∧ m.write_b = false) →
      Mmu.writemembl s addr val =
        ((Mmu.mmutranslatereal (Mmu.set_mla s addr) addr true).2, Mmu.WriteEff.noWrite) ∧
      (s.abrt = false → (Mmu.mmutranslatereal (Mmu.set_mla s addr) addr true).2.abrt = false)) ∧
    (∀ (s : Mmu.MState) (addr val : Nat), s.page_lookup (addr >>> 12) = none →
      s.cr0 >>> 31 = 0 →
      (s.write_mapping ((addr &&& s.rammask) >>> Mmu.MEM_GRANULARITY_BITS) = none ∨
       ∃ m, s.write_mapping ((addr &&& s.rammask) >>> Mmu.MEM_GRANULARITY_BITS) = some m ∧
         m.write_b = false) →
      Mmu.writemembl s addr val = (Mmu.set_mla s addr, Mmu.WriteEff.noWrite)) := by
  refine ⟨?_, ?_, ?_, ?_, ?_, ?_⟩
  · intro s addr hp hf
    exact ⟨Mmu.readmembl_fault s addr hp hf,
      (Mmu.real_fault_tab (Mmu.set_mla s addr) addr false hf).1,
      (Mmu.real_fault_tab (Mmu.set_mla s addr) addr false hf).2⟩
  · intro s addr hp hnf hle hnm
    refine ⟨Mmu.readmembl_unmapped s addr hp hnf hle hnm, ?_⟩
    intro habrt
    have hiff := Mmu.real_fault_iff_abrt (Mmu.set_mla s addr) addr false habrt
    rcases hb : (Mmu.mmutranslatereal (Mmu.set_mla s addr) addr false).2.abrt with _ | _
    · rfl
    · exact absurd (hiff.mpr hb) hnf
  · intro s addr hp hnm
    exact Mmu.readmembl_unmapped_nopaging s addr hp hnm
  · intro s addr val hpl hp hf
    exact ⟨Mmu.writemembl_fault s addr val hpl hp hf,
      (Mmu.real_fault_tab (Mmu.set_mla s addr) addr true hf).1,
      (Mmu.real_fault_tab (Mmu.set_mla s addr) addr true hf).2⟩
  · intro s addr val hpl hp hnf hle hnm
    refine ⟨Mmu.writemembl_unmapped s addr val hpl hp hnf hle hnm, ?_⟩
    intro habrt
    have hiff := Mmu.real_fault_iff_abrt (Mmu.set_mla s addr) addr true habrt
    rcases hb : (Mmu.mmutranslatereal (Mmu.set_mla s addr) addr true).2.abrt with _ | _
    · rfl
    · exact absurd (hiff.mpr hb) hnf
  · intro s addr val hpl hp hnm
    exact Mmu.writemembl_unmapped_nopaging s addr val hpl hp hnm

/-- Witness for claim C5: the unmapped read and unmapped write cases with
paging off, applied at the empty dispatch state. -/
theorem c5_openbus_sentinel_witness :
    (({ } : Mmu.MState).cr0 >>> 31 = 0 ∧
     ({ } : Mmu.MState).read_mapping ((0 &&& ({ } : Mmu.MState).rammask) >>>
       Mmu.MEM_GRANULARITY_BITS) = none ∧
     Mmu.readmembl { } 0 = (0xff, Mmu.set_mla { } 0)) ∧
    (({ } : Mmu.MState).page_lookup (0 >>> 12) = none ∧
     Mmu.writemembl { } 0 0xab = (Mmu.set_mla { } 0, Mmu.WriteEff.noWrite)) :=
  ⟨⟨rfl, rfl, c5_openbus_sentinel.2.2.1 { } 0 rfl (Or.inl rfl)⟩,
   ⟨rfl, c5_openbus_sentinel.2.2.2.2.2 { } 0 0xab rfl rfl (Or.inl rfl)⟩⟩

/-- Claim C6: a byte write through the RAM page write handler
mem_write_ramb_page whose value equals the byte already stored, with the
external JIT not mid-recompilation, changes nothing at all: no dirty or
byte-dirty bit is set, the page contents stay unchanged, and the page is
not inserted into the eviction list (the whole state is returned
untouched). -/
theorem c6_unchanged_write_noop :
    ∀ (s : Pg.PageState) (addr val pi : Nat),
      val = (s.pages pi).mem (addr &&& 0xfff) →
      s.codegen_in_recompile = false →
      Pg.mem_write_ramb_page s addr val pi = s :=
  Pg.ramb_page_noop

/-- Witness for claim C6: writing the value already stored at offset 0
of page 0 of the all-zero page state is the identity. -/
theorem c6_unchanged_write_noop_witness :
    (0 = ((({ } : Pg.PageState)).pages 0).mem (0 &&& 0xfff)) ∧
    ({ } : Pg.PageState).codegen_in_recompile = false ∧
    Pg.mem_write_ramb_page { } 0 0 0 = ({ } : Pg.PageState) :=
  ⟨rfl, rfl, c6_unchanged_write_noop { } 0 0 0 rfl rfl⟩

/-- Claim C7: a byte write through mem_write_ramb_page that changes the
stored byte, when the touched sub-block has its bit set in the pages
code_present_mask or the corresponding bit set in its
byte_code_present_mask word, leaves the page linked into the eviction
list afterwards. -/
theorem c7_code_write_evict :
    ∀ (s : Pg.PageState) (addr val pi : Nat),
      val ≠ (s.pages pi).mem (addr &&& 0xfff) →
      ((s.pages pi).code_present_mask &&&
          (1 <<< ((addr >>> Pg.PAGE_MASK_SHIFT) &&& Pg.PAGE_MASK_MASK)) ≠ 0 ∨
        (s.pages pi).byte_code_present_mask
            ((addr >>> Pg.PAGE_BYTE_MASK_SHIFT) &&& Pg.PAGE_BYTE_MASK_OFFSET_MASK) &&&
          (1 <<< (addr &&& Pg.PAGE_BYTE_MASK_MASK)) ≠ 0) →
      Pg.page_in_evict_list ((Pg.mem_write_ramb_page s addr val pi).pages pi) :=
  Pg.ramb_page_evict

/-- Witness for claim C7: a changing write at offset 0 of a page whose
first sub-block is code resident lands the page in the eviction list. -/
theorem c7_code_write_evict_witness :
    (1 ≠ ((({ pages := fun _ => { code_present_mask := 1 } } : Pg.PageState)).pages 0).mem
      (0 &&& 0xfff)) ∧
    Pg.page_in_evict_list
      ((Pg.mem_write_ramb_page { pages := fun _ => { code_present_mask := 1 } } 0 1 0).pages 0) :=
  ⟨by decide,
   c7_code_write_evict { pages := fun _ => { code_present_mask := 1 } } 0 1 0 (by decide)
     (Or.inl (by decide))⟩

/-- Claim C10: the physical bulk-transfer helpers are asymmetric at byte
width: mem_read_phys with transfer_size 1 takes none of its branches (its
third branch repeats the transfer_size 4 test), so it performs no read
and leaves the destination untouched, while mem_write_phys treats every
transfer_size other than 4 and 2 as a single-byte write through
mem_writeb_phys. -/
theorem c10_phys_width_asymmetry :
    (∀ (s : Phys.PhysState) (addr : Nat),
      Phys.mem_read_phys s addr 1 = (s, Phys.ReadDest.untouched)) ∧
    (∀ (s : Phys.PhysState) (src : Nat → Nat) (addr ts : Nat), ts ≠ 4 → ts ≠ 2 →
      Phys.mem_write_phys s src addr ts = Phys.mem_writeb_phys s addr (src 0)) := by
  constructor
  · intro s addr
    rfl
  · intro s src addr ts h4 h2
    unfold Phys.mem_write_phys
    rw [if_neg h4, if_neg h2]

/-- Witness for claim C10: the write half applied at transfer_size 1. -/
theorem c10_phys_width_asymmetry_witness :
    (1 : Nat) ≠ 4 ∧ (1 : Nat) ≠ 2 ∧
    Phys.mem_write_phys { } (fun _ => 0xcd) 0 1 =
      Phys.mem_writeb_phys { } 0 ((fun _ => (0xcd : Nat)) 0) :=
  ⟨by decide, by decide,
   c10_phys_width_asymmetry.2 { } (fun _ => 0xcd) 0 1 (by decide) (by decide)⟩

/-- Claim C8, counterexample to the unconditional form: registering a
size-0 mapping is a Region Registry mutation, but mem_mapping_recalc
returns before flushing when the size is 0, so a live translation cache
entry survives the mutation. -/
theorem c8_size_zero_counterexample :
    (Reg.mem_mapping_add
        { tlb := { readlookup := fupd (fun _ => 0xffffffff) 0 5,
                   readlookup2 := fupd (fun _ => none) 5 (some 0) } }
        { }).tlb.readlookup 0 = 5 ∧
    (Reg.mem_mapping_add
        { tlb := { readlookup := fupd (fun _ => 0xffffffff) 0 5,
                   readlookup2 := fupd (fun _ => none) 5 (some 0) } }
        { }).tlb.readlookup2 5 = some 0 ∧
    (5 : Nat) ≠ 0xffffffff :=
  ⟨rfl, rfl, by decide⟩

/-- Claim C8 (amended): every Region Registry mutation whose
recalculated range has nonzero size (for mem_mapping_set_addr: whose old
or new size is nonzero) invalidates all entries of both translation
caches: afterwards every slot of both rings holds the sentinel and the
reverse entries of every virtual page that occupied a valid slot are
cleared.  A mutation over a size-0 range returns before the flush. -/
theorem c8_mutation_flush_amended :
    (∀ (s : Reg.RegState) (m : Reg.MemMap), m.size ≠ 0 →
      Reg.tlbFlushed s.tlb (Reg.mem_mapping_add s m).tlb) ∧
    (∀ (s : Reg.RegState) (i : Nat) (m : Reg.MemMap), s.mappings[i]? = some m →
      m.size ≠ 0 → Reg.tlbFlushed s.tlb (Reg.mem_mapping_del s i).tlb) ∧
    (∀ (s : Reg.RegState) (i : Nat) (m : Reg.MemMap), s.mappings[i]? = some m →
      m.size ≠ 0 → Reg.tlbFlushed s.tlb (Reg.mem_mapping_enable s i).tlb) ∧
    (∀ (s : Reg.RegState) (i : Nat) (m : Reg.MemMap), s.mappings[i]? = some m →
      m.size ≠ 0 → Reg.tlbFlushed s.tlb (Reg.mem_mapping_disable s i).tlb) ∧
    (∀ (s : Reg.RegState) (i : Nat) (m : Reg.MemMap) (nb nsz : Nat),
      s.mappings[i]? = some m → (m.size ≠ 0 ∨ nsz ≠ 0) →
      Reg.tlbFlushed s.tlb (Reg.mem_mapping_set_addr s i nb nsz).tlb) ∧
    (∀ (s : Reg.RegState) (i : Nat) (m : Reg.MemMap) (rb rw2 rl wb ww wl : Bool),
      s.mappings[i]? = some m → m.size ≠ 0 →
      Reg.tlbFlushed s.tlb (Reg.mem_mapping_set_handler s i rb rw2 rl wb ww wl).tlb) :=
  ⟨Reg.add_flushes,
   fun s i m hi hsz => Reg.del_flushes s i m hi hsz,
   fun s i m hi hsz => Reg.enable_flushes s i m hi hsz,
   fun s i m hi hsz => Reg.disable_flushes s i m hi hsz,
   fun s i m nb nsz hi hsz => Reg.set_addr_flushes s i m nb nsz hi hsz,
   fun s i m rb rw2 rl wb ww wl hi hsz =>
     Reg.set_handler_flushes s i m rb rw2 rl wb ww wl hi hsz⟩

/-- Witness for claim C8: adding a nonzero-size mapping to the state of
the counterexample flushes both caches. -/
theorem c8_mutation_flush_witness :
    ({ size := 4096 } : Reg.MemMap).size ≠ 0 ∧
    Reg.tlbFlushed
      ({ tlb := { readlookup := fupd (fun _ => 0xffffffff) 0 5,
                  readlookup2 := fupd (fun _ => none) 5 (some 0) } } : Reg.RegState).tlb
      (Reg.mem_mapping_add
        { tlb := { readlookup := fupd (fun _ => 0xffffffff) 0 5,
                   readlookup2 := fupd (fun _ => none) 5 (some 0) } }
        { size := 4096 }).tlb :=
  ⟨by decide,
   c8_mutation_flush_amended.1
     { tlb := { readlookup := fupd (fun _ => 0xffffffff) 0 5,
                readlookup2 := fupd (fun _ => none) 5 (some 0) } }
     { size := 4096 } (by decide)⟩


/-- Claim C9, counterexample: addwritelookup declines insertion only
when page_lookup holds the page, not when writelookup2 does, so
inserting the same virtual page twice into an empty write cache (a
non-code RAM page, cached through writelookup2) leaves two live ring
slots holding the same virtual page. -/
theorem c9_writelookup_dup_counterexample :
    (Reg.addwritelookup (Reg.addwritelookup { } 4 (fun _ => false) 1 0 0)
        4 (fun _ => false) 1 0 0).writelookup 0 = 0 ∧
    (Reg.addwritelookup (Reg.addwritelookup { } 4 (fun _ => false) 1 0 0)
        4 (fun _ => false) 1 0 0).writelookup 1 = 0 ∧
    (Reg.addwritelookup (Reg.addwritelookup { } 4 (fun _ => false) 1 0 0)
        4 (fun _ => false) 1 0 0).writelookup2 0 ≠ none ∧
    (0 : Nat) ≠ 0xffffffff :=
  ⟨rfl, rfl, by decide, by decide⟩

/-- Claim C9 (amended): the uniqueness invariant holds for the read
cache: inserting a virtual page already present in readlookup2 is a
no-op, and addreadlookup preserves the discipline that every valid slot
has a live reverse entry and no virtual page occupies two valid slots.
The write cache does not enjoy the claimed invariant: addwritelookup
declines insertion only on a page_lookup hit, so a page cached through
writelookup2 can come to occupy two live slots. -/
theorem c9_readlookup_unique_amended :
    (∀ (t : Reg.Tlb) (perm virt phys : Nat),
      (t.readlookup2 (virt >>> 12)).isSome = true →
      Reg.addreadlookup t perm virt phys = t) ∧
    (∀ (t : Reg.Tlb) (perm virt phys : Nat), virt < 4294967296 → Reg.readInv t →
      Reg.readInv (Reg.addreadlookup t perm virt phys)) :=
  ⟨Reg.addreadlookup_cached_noop, Reg.addreadlookup_preserves_inv⟩

/-- Witness for claim C9: the preservation half applied to an insertion
into the empty read cache. -/
theorem c9_readlookup_unique_witness :
    (0 : Nat) < 4294967296 ∧ Reg.readInv { } ∧
    Reg.readInv (Reg.addreadlookup { } 4 0 0) := by
  have hInv : Reg.readInv { } :=
    ⟨by decide, fun c hc hval => absurd rfl hval,
     fun c hc cq hcq hne hval => absurd rfl hval⟩
  exact ⟨by decide, hInv, c9_readlookup_unique_amended.2 { } 4 0 0 (by decide) hInv⟩

/-- Claim C4: registering an enabled mapping B after a mapping A with
overlapping, granularity-aligned ranges, handlers on both sides and
visibility state admitting both, makes B (registry index 1) the read and
write dispatch owner of every granularity chunk i of the overlap; the
recalculation triggered by disabling B reverts ownership of those chunks
to A (registry index 0). -/
theorem c4_last_registration_wins
    (s : Reg.RegState) (A B : Reg.MemMap) (i : Nat)
    (hmaps : s.mappings = [A])
    (hAen : A.enable = true)
    (hABase : A.base % 4096 = 0) (hASize : A.size % 4096 = 0)
    (hBBase : B.base % 4096 = 0) (hBSize : B.size % 4096 = 0)
    (hAlo : A.base ≤ 4096 * i) (hAhi : 4096 * i < A.base + A.size)
    (hBlo : B.base ≤ 4096 * i) (hBhi : 4096 * i < B.base + B.size)
    (hAr : (A.read_b || A.read_w || A.read_l) = true)
    (hAw : (A.write_b || A.write_w || A.write_l) = true)
    (hBr : (B.read_b || B.read_w || B.read_l) = true)
    (hBw : (B.write_b || B.write_w || B.write_l) = true)
    (hArv : Reg.mem_mapping_read_allowed A.flags (s.mem_state i) false s.in_smm = true)
    (hAwv : Reg.mem_mapping_write_allowed A.flags (s.mem_state i) s.in_smm = true)
    (hBrv : Reg.mem_mapping_read_allowed B.flags (s.mem_state i) false s.in_smm = true)
    (hBwv : Reg.mem_mapping_write_allowed B.flags (s.mem_state i) s.in_smm = true) :
    ((Reg.mem_mapping_add s B).tables.read_mapping i = some 1 ∧
     (Reg.mem_mapping_add s B).tables.write_mapping i = some 1) ∧
    ((Reg.mem_mapping_disable (Reg.mem_mapping_add s B) 1).tables.read_mapping i = some 0 ∧
     (Reg.mem_mapping_disable (Reg.mem_mapping_add s B) 1).tables.write_mapping i = some 0) := by
  have hBsz : B.size ≠ 0 := by omega
  have hBne : (B.size != 0) = true := by simp [hBsz]
  have hadd : Reg.mem_mapping_add s B =
      Reg.mem_mapping_recalc { s with mappings := [A, { B with enable := true }] }
        B.base B.size := by
    unfold Reg.mem_mapping_add
    dsimp only
    rw [hBne, hmaps, List.singleton_append]
  rw [hadd]
  set S1 := Reg.mem_mapping_recalc { s with mappings := [A, { B with enable := true }] }
      B.base B.size with hS1
  have htab1 : S1.tables =
      Reg.recalcWalk s.mem_state s.in_smm
        (Reg.clearChunks s.tables B.base (B.base + B.size))
        [A, { B with enable := true }] 0 B.base B.size := by
    rw [hS1, Reg.recalc_tables _ _ _ hBsz]
  have hmapsS1 : S1.mappings = [A, { B with enable := true }] := by
    rw [hS1, Reg.recalc_mappings]
  have hmsS1 : S1.mem_state = s.mem_state := by
    rw [hS1, Reg.recalc_mem_state]
  have hsmmS1 : S1.in_smm = s.in_smm := by
    rw [hS1, Reg.recalc_in_smm]
  have hdis : Reg.mem_mapping_disable S1 1 =
      Reg.mem_mapping_recalc { S1 with mappings := [A, { B with enable := false }] }
        B.base B.size := by
    unfold Reg.mem_mapping_disable
    rw [hmapsS1]
    rfl
  have htab3 : (Reg.mem_mapping_recalc { S1 with mappings := [A, { B with enable := false }] }
      B.base B.size).tables =
      Reg.recalcWalk s.mem_state s.in_smm
        (Reg.clearChunks S1.tables B.base (B.base + B.size))
        [A, { B with enable := false }] 0 B.base B.size := by
    rw [Reg.recalc_tables _ _ _ hBsz]
    dsimp only
    rw [hmsS1, hsmmS1]
  refine ⟨⟨?_, ?_⟩, ?_, ?_⟩
  · rw [htab1]
    simp only [Reg.recalcWalk]
    rw [if_pos (show True ∧ B.base < B.base + B.size ∧ B.base + B.size > B.base
        from ⟨trivial, by omega, by omega⟩)]
    rw [Reg.applyMapChunks_read]
    · simp only [ite_self]
      rw [if_pos (show B.base ≤ 4096 * i ∧ 4096 * i < B.base + B.size ∧
          ((B.read_b || B.read_w || B.read_l) &&
            Reg.mem_mapping_read_allowed B.flags (s.mem_state i) false s.in_smm) = true
          from ⟨hBlo, hBhi, by rw [hBr, hBrv]; rfl⟩)]
    · split_ifs <;> omega
    · split_ifs <;> omega
  · rw [htab1]
    simp only [Reg.recalcWalk]
    rw [if_pos (show True ∧ B.base < B.base + B.size ∧ B.base + B.size > B.base
        from ⟨trivial, by omega, by omega⟩)]
    rw [Reg.applyMapChunks_write]
    · simp only [ite_self]
      rw [if_pos (show B.base ≤ 4096 * i ∧ 4096 * i < B.base + B.size ∧
          ((B.write_b || B.write_w || B.write_l) &&
            Reg.mem_mapping_write_allowed B.flags (s.mem_state i) s.in_smm) = true
          from ⟨hBlo, hBhi, by rw [hBw, hBwv]; rfl⟩)]
    · split_ifs <;> omega
    · split_ifs <;> omega
  · rw [hdis, htab3]
    simp only [Reg.recalcWalk]
    rw [if_neg (show ¬ (false = true ∧ B.base < B.base + B.size ∧ B.base + B.size > B.base)
        from fun hx => Bool.false_ne_true hx.1)]
    rw [if_pos (show A.enable = true ∧ A.base < B.base + B.size ∧ A.base + A.size > B.base
        from ⟨hAen, by omega, by omega⟩)]
    rw [Reg.applyMapChunks_read]
    · rw [if_pos (show
          (if (if A.base < B.base then A.base else B.base) < A.base then A.base
            else if A.base < B.base then A.base else B.base) ≤ 4096 * i ∧
          4096 * i < (if A.base + A.size < B.base + B.size then A.base + A.size
            else B.base + B.size) ∧
          ((A.read_b || A.read_w || A.read_l) &&
            Reg.mem_mapping_read_allowed A.flags (s.mem_state i) false s.in_smm) = true
          from ⟨by split_ifs <;> omega, by split_ifs <;> omega,
            by rw [hAr, hArv]; rfl⟩)]
    · split_ifs <;> omega
    · split_ifs <;> omega
  · rw [hdis, htab3]
    simp only [Reg.recalcWalk]
    rw [if_neg (show ¬ (false = true ∧ B.base < B.base + B.size ∧ B.base + B.size > B.base)
        from fun hx => Bool.false_ne_true hx.1)]
    rw [if_pos (show A.enable = true ∧ A.base < B.base + B.size ∧ A.base + A.size > B.base
        from ⟨hAen, by omega, by omega⟩)]
    rw [Reg.applyMapChunks_write]
    · rw [if_pos (show
          (if (if A.base < B.base then A.base else B.base) < A.base then A.base
            else if A.base < B.base then A.base else B.base) ≤ 4096 * i ∧
          4096 * i < (if A.base + A.size < B.base + B.size then A.base + A.size
            else B.base + B.size) ∧
          ((A.write_b || A.write_w || A.write_l) &&
            Reg.mem_mapping_write_allowed A.flags (s.mem_state i) s.in_smm) = true
          from ⟨by split_ifs <;> omega, by split_ifs <;> omega,
            by rw [hAw, hAwv]; rfl⟩)]
    · split_ifs <;> omega
    · split_ifs <;> omega

/-- Witness for claim C4: mapping c4A covers 0x0-0x2000, mapping c4B
covers 0x1000-0x2000, the chunk state admits any reader and writer, and
chunk 1 is the overlap: after adding c4B it owns the chunk, after
disabling c4B ownership reverts to c4A. -/
theorem c4_last_registration_wins_witness :
    c4S.mappings = [c4A] ∧ c4A.enable = true ∧
    c4B.base ≤ 4096 * 1 ∧ 4096 * 1 < c4B.base + c4B.size ∧
    Reg.mem_mapping_read_allowed c4A.flags (c4S.mem_state 1) false c4S.in_smm = true ∧
    Reg.mem_mapping_write_allowed c4B.flags (c4S.mem_state 1) c4S.in_smm = true ∧
    (((Reg.mem_mapping_add c4S c4B).tables.read_mapping 1 = some 1 ∧
      (Reg.mem_mapping_add c4S c4B).tables.write_mapping 1 = some 1) ∧
     ((Reg.mem_mapping_disable (Reg.mem_mapping_add c4S c4B) 1).tables.read_mapping 1 = some 0 ∧
      (Reg.mem_mapping_disable (Reg.mem_mapping_add c4S c4B) 1).tables.write_mapping 1 = some 0)) := by
  refine ⟨rfl, rfl, by decide, by decide, by decide, by decide, ?_⟩
  exact c4_last_registration_wins c4S c4A c4B 1 rfl rfl (by decide) (by decide)
    (by decide) (by decide) (by decide) (by decide) (by decide) (by decide)
    (by decide) (by decide) (by decide) (by decide) (by decide) (by decide)
    (by decide) (by decide)
